import Mathlib

/-!
Shallow embedding of the `news` Django application (news-app-django).
Python source files are cited next to each definition.  Database tables are
embedded as Lean lists of structures; each Django view / model method that the
claims touch becomes a pure Lean function transforming an explicit `DB` state.
-/

namespace NewsApp

/-- Role choices of `CustomUser.ROLE_CHOICES` (news/models.py). -/
inductive Role where
  | reader
  | journalist
  | editor
  | publisher
  deriving DecidableEq, Repr

/-- Article / RoleApplication review status choices (news/models.py). -/
inductive ReviewStatus where
  | pending
  | approved
  | rejected
  deriving DecidableEq, Repr

/-- CustomUser (news/models.py): id (pk), username, email, password and role. -/
structure User where
  id : Nat
  username : String
  email : String
  password : String
  role : Role
  deriving DecidableEq, Repr

/-- Publisher (news/models.py): pk, one-to-one user, unique name. -/
structure Publisher where
  id : Nat
  userId : Nat
  name : String
  deriving DecidableEq, Repr

/-- Editor (news/models.py): one-to-one user, publisher FK (surrogate pk omitted;
rows are keyed by the one-to-one `user`). -/
structure Editor where
  userId : Nat
  publisherId : Nat
  deriving DecidableEq, Repr

/-- Journalist (news/models.py): pk, one-to-one user, publisher FK. -/
structure Journalist where
  id : Nat
  userId : Nat
  publisherId : Nat
  deriving DecidableEq, Repr

/-- Article (news/models.py): pk, title, content, journalist FK, publisher FK,
status (default pending) and `created_at` (modelled as a Nat timestamp). -/
structure Article where
  id : Nat
  title : String
  content : String
  journalistId : Nat
  publisherId : Nat
  status : ReviewStatus
  createdAt : Nat
  deriving DecidableEq, Repr

/-- Newsletter (news/models.py): like Article but with no status field. -/
structure Newsletter where
  id : Nat
  title : String
  content : String
  journalistId : Nat
  publisherId : Nat
  createdAt : Nat
  deriving DecidableEq, Repr

/-- JournalistSubscription (news/models.py): reader FK, journalist FK,
`is_active` flag; `unique_together (reader, journalist)`. -/
structure JSub where
  readerId : Nat
  journalistId : Nat
  isActive : Bool
  deriving DecidableEq, Repr

/-- PublisherSubscription (news/models.py): reader FK, publisher FK,
`is_active` flag; `unique_together (reader, publisher)`. -/
structure PSub where
  readerId : Nat
  publisherId : Nat
  isActive : Bool
  deriving DecidableEq, Repr

/-- RoleApplication (news/models.py): pk, user FK, applied role, status. -/
structure RoleApp where
  id : Nat
  userId : Nat
  appliedRole : Role
  status : ReviewStatus
  deriving DecidableEq, Repr

/-- ResetToken (news/models.py): user FK, stored token string (unique),
expiry date and `used` flag. -/
structure ResetTok where
  userId : Nat
  token : String
  expiryDate : Nat
  used : Bool
  deriving DecidableEq, Repr

/-- The relational state of the application.  `now` models the wall clock
(`timezone.now()`) in seconds and `nextId` the auto-increment pk counter used
when new rows are inserted. -/
structure DB where
  users : List User
  publishers : List Publisher
  editors : List Editor
  journalists : List Journalist
  articles : List Article
  newsletters : List Newsletter
  jSubs : List JSub
  pSubs : List PSub
  applications : List RoleApp
  resetTokens : List ResetTok
  now : Nat
  nextId : Nat
  deriving DecidableEq, Repr

/-- Row-level UPDATE: rewrite every row satisfying `p` with `f`, leaving the
other rows untouched (models `queryset.update(...)` / `obj.save()` on a row
singled out by a filter). -/
def updateWhere (p : α → Bool) (f : α → α) (l : List α) : List α :=
  l.map fun x => if p x then f x else x

/-- Articles ordered by `created_at` descending (`order_by("-created_at")`). -/
def createdDescA (a b : Article) : Prop := b.createdAt ≤ a.createdAt

/-- Newsletters ordered by `created_at` descending. -/
def createdDescN (a b : Newsletter) : Prop := b.createdAt ≤ a.createdAt

instance : DecidableRel createdDescA := fun _ _ => Nat.decLe _ _

instance : DecidableRel createdDescN := fun _ _ => Nat.decLe _ _

instance : IsTotal Article createdDescA :=
  ⟨fun a b => (Nat.le_total b.createdAt a.createdAt)⟩

instance : IsTrans Article createdDescA :=
  ⟨fun _ _ _ h1 h2 => Nat.le_trans h2 h1⟩

instance : IsTotal Newsletter createdDescN :=
  ⟨fun a b => (Nat.le_total b.createdAt a.createdAt)⟩

instance : IsTrans Newsletter createdDescN :=
  ⟨fun _ _ _ h1 h2 => Nat.le_trans h2 h1⟩

/-- Sort articles newest first, the embedding of `order_by("-created_at")`. -/
def orderByCreatedDesc (l : List Article) : List Article :=
  l.insertionSort createdDescA

/-- Sort newsletters newest first. -/
def orderByCreatedDescN (l : List Newsletter) : List Newsletter :=
  l.insertionSort createdDescN

/-- Active journalist subscriptions target ids of a user
(`JournalistSubscription.objects.filter(reader=user, is_active=True)
.values_list("journalist_id", flat=True)`, news/api/views.py 45-47). -/
def subscribedJournalistIds (db : DB) (u : User) : List Nat :=
  (db.jSubs.filter fun s => s.readerId == u.id && s.isActive).map (·.journalistId)

/-- Active publisher subscriptions target ids of a user
(news/api/views.py 49-51). -/
def subscribedPublisherIds (db : DB) (u : User) : List Nat :=
  (db.pSubs.filter fun s => s.readerId == u.id && s.isActive).map (·.publisherId)

/-- ArticleViewSet.get_queryset (news/api/views.py 35-70): readers get approved
articles from subscribed journalists or publishers; everyone else gets all
approved articles; both ordered by creation time descending. -/
def visible_articles (db : DB) (u : User) : List Article :=
  if u.role = Role.reader then
    orderByCreatedDesc <|
      (db.articles.filter fun a => a.status == ReviewStatus.approved).filter
        fun a =>
          (subscribedJournalistIds db u).contains a.journalistId
            || (subscribedPublisherIds db u).contains a.publisherId
  else
    orderByCreatedDesc (db.articles.filter fun a => a.status == ReviewStatus.approved)

/-- Existence of an active journalist subscription of `u` targeting `jid`. -/
def activeJSubTo (db : DB) (u : User) (jid : Nat) : Prop :=
  ∃ s ∈ db.jSubs, s.readerId = u.id ∧ s.journalistId = jid ∧ s.isActive

/-- Existence of an active publisher subscription of `u` targeting `pid`. -/
def activePSubTo (db : DB) (u : User) (pid : Nat) : Prop :=
  ∃ s ∈ db.pSubs, s.readerId = u.id ∧ s.publisherId = pid ∧ s.isActive

instance (db : DB) (u : User) (jid : Nat) : Decidable (activeJSubTo db u jid) := by
  unfold activeJSubTo; infer_instance

instance (db : DB) (u : User) (pid : Nat) : Decidable (activePSubTo db u pid) := by
  unfold activePSubTo; infer_instance

theorem mem_subscribedJournalistIds (db : DB) (u : User) (jid : Nat) :
    jid ∈ subscribedJournalistIds db u ↔ activeJSubTo db u jid := by
  simp only [subscribedJournalistIds, activeJSubTo, List.mem_map, List.mem_filter,
    Bool.and_eq_true, beq_iff_eq]
  constructor
  · rintro ⟨s, ⟨hs, hr, ha⟩, hj⟩
    exact ⟨s, hs, hr, hj, ha⟩
  · rintro ⟨s, hs, hr, hj, ha⟩
    exact ⟨s, ⟨hs, hr, ha⟩, hj⟩

theorem mem_subscribedPublisherIds (db : DB) (u : User) (pid : Nat) :
    pid ∈ subscribedPublisherIds db u ↔ activePSubTo db u pid := by
  simp only [subscribedPublisherIds, activePSubTo, List.mem_map, List.mem_filter,
    Bool.and_eq_true, beq_iff_eq]
  constructor
  · rintro ⟨s, ⟨hs, hr, ha⟩, hj⟩
    exact ⟨s, hs, hr, hj, ha⟩
  · rintro ⟨s, hs, hr, hj, ha⟩
    exact ⟨s, ⟨hs, hr, ha⟩, hj⟩

theorem mem_orderByCreatedDesc (l : List Article) (a : Article) :
    a ∈ orderByCreatedDesc l ↔ a ∈ l :=
  (List.perm_insertionSort _ _).mem_iff

theorem sorted_orderByCreatedDesc (l : List Article) :
    List.Sorted createdDescA (orderByCreatedDesc l) :=
  List.sorted_insertionSort _ _

theorem nodup_orderByCreatedDesc (l : List Article) (h : l.Nodup) :
    (orderByCreatedDesc l).Nodup :=
  ((List.perm_insertionSort createdDescA l).nodup_iff).mpr h

theorem mem_orderByCreatedDescN (l : List Newsletter) (a : Newsletter) :
    a ∈ orderByCreatedDescN l ↔ a ∈ l :=
  (List.perm_insertionSort _ _).mem_iff

/-! ### State-changing operations -/

/-- CustomUser._deactivate_subscriptions together with the two explicit
`.filter(reader=user, is_active=True).update(is_active=False)` blocks
(news/models.py 52-65, news/views.py 988-994, news/admin.py 37-42). -/
def deactivateSubs (db : DB) (uid : Nat) : DB :=
  { db with
    jSubs := updateWhere (fun s => s.readerId == uid && s.isActive)
      (fun s => { s with isActive := false }) db.jSubs
    pSubs := updateWhere (fun s => s.readerId == uid && s.isActive)
      (fun s => { s with isActive := false }) db.pSubs }

/-- CustomUser.save (news/models.py 24-49): record the old role of the row with
the same pk (if any), persist the user (update or insert), and when the role
changed from reader to a non-reader role deactivate all of the user's
subscriptions.  Group bookkeeping (`self.groups`) is not modelled: no claim
refers to auth groups. -/
def userSave (db : DB) (u : User) : DB :=
  match db.users.find? fun x => x.id == u.id with
  | some old =>
    let db1 : DB :=
      { db with users := updateWhere (fun x => x.id == u.id) (fun _ => u) db.users }
    if old.role ≠ u.role ∧ old.role = Role.reader ∧ u.role ≠ Role.reader then
      deactivateSubs db1 u.id
    else db1
  | none => { db with users := db.users ++ [u] }

/-- Editor.objects.get_or_create(user=user, publisher=publisher)
(news/views.py 997-998, news/admin.py 46-47). -/
def getOrCreateEditor (es : List Editor) (uid pid : Nat) : List Editor :=
  if es.any fun e => e.userId == uid && e.publisherId == pid then es
  else es ++ [{ userId := uid, publisherId := pid }]

/-- Journalist.objects.get_or_create(user=user, publisher=publisher)
(news/views.py 999-1000, news/admin.py 48-51); a fresh pk is drawn from the
auto-increment counter on insertion. -/
def getOrCreateJournalist (js : List Journalist) (nid uid pid : Nat) :
    List Journalist × Nat :=
  if js.any fun j => j.userId == uid && j.publisherId == pid then (js, nid)
  else (js ++ [{ id := nid, userId := uid, publisherId := pid }], nid + 1)

/-- Publisher.objects.get_or_create(user=user, name=f"{user.username} Publishing")
(news/views.py 1001-1004, news/admin.py 52-55). -/
def getOrCreatePublisher (ps : List Publisher) (nid uid : Nat) (nm : String) :
    List Publisher × Nat :=
  if ps.any fun p => p.userId == uid && p.name == nm then (ps, nid)
  else (ps ++ [{ id := nid, userId := uid, name := nm }], nid + 1)

/-- The role-specific profile creation chain shared by
approve_role_application (news/views.py 996-1004) and
RoleApplicationAdmin.save_model (news/admin.py 44-55):
`if applied_role == "editor" and publisher: ... elif applied_role ==
"journalist" and publisher: ... elif applied_role == "publisher": ...`. -/
def createRoleProfile (db : DB) (user : User) (role : Role) (pub : Option Publisher) : DB :=
  if role = Role.editor then
    match pub with
    | some p => { db with editors := getOrCreateEditor db.editors user.id p.id }
    | none => db
  else if role = Role.journalist then
    match pub with
    | some p =>
      let r := getOrCreateJournalist db.journalists db.nextId user.id p.id
      { db with journalists := r.1, nextId := r.2 }
    | none => db
  else if role = Role.publisher then
    let r := getOrCreatePublisher db.publishers db.nextId user.id
      (user.username ++ " Publishing")
    { db with publishers := r.1, nextId := r.2 }
  else db

/-- approve_role_application (news/views.py 964-1018), POST branch: look up the
application, mark it approved, set the user's role to the applied role and save
the user, deactivate every active subscription of the user, then create the
role-specific profile with get-or-create semantics.  `pub` is the publisher
resolved from the optional `publisher` form field (None when none supplied). -/
def approve_role_application (db : DB) (appId : Nat) (pub : Option Publisher) : DB :=
  match db.applications.find? fun a => a.id == appId with
  | none => db
  | some app =>
    let db1 : DB :=
      { db with applications :=
                  updateWhere (fun a => a.id == appId)
                    (fun a => { a with status := ReviewStatus.approved }) db.applications }
    match db1.users.find? fun x => x.id == app.userId with
    | none => db1
    | some user =>
      let user' : User := { user with role := app.appliedRole }
      let db2 := userSave db1 user'
      let db3 := deactivateSubs db2 user.id
      createRoleProfile db3 user' app.appliedRole pub

/-- RoleApplicationAdmin.save_model (news/admin.py 20-68): persist the edited
application object, then, when its status is approved, run the same role
update / subscription deactivation / profile creation sequence as the
approval view; on rejected only a notification email is sent. -/
def roleApplicationSaveModel (db : DB) (obj : RoleApp) (pub : Option Publisher) : DB :=
  let db0 : DB :=
    { db with applications :=
        if db.applications.any fun a => a.id == obj.id then
          updateWhere (fun a => a.id == obj.id) (fun _ => obj) db.applications
        else db.applications ++ [obj] }
  if obj.status = ReviewStatus.approved then
    match db0.users.find? fun x => x.id == obj.userId with
    | none => db0
    | some user =>
      let user' : User := { user with role := obj.appliedRole }
      let db1 := userSave db0 user'
      let db2 := deactivateSubs db1 user.id
      createRoleProfile db2 user' obj.appliedRole pub
  else db0

/-- Outcome of the subscribe views (the user-facing message branch taken). -/
inductive SubOutcome where
  | permError
  | targetNotFound
  | created
  | reactivated
  | alreadyActive
  deriving DecidableEq, Repr

/-- Outcome of the unsubscribe views. -/
inductive UnsubOutcome where
  | permError
  | targetNotFound
  | deactivated
  | notSubscribed
  deriving DecidableEq, Repr

/-- subscribe_to_journalist (news/views.py 444-479): readers only; 404 when the
journalist does not exist; `get_or_create` on the (reader, journalist) pair
with `is_active=True` default, reactivating an inactive row and leaving an
active row untouched. -/
def subscribe_to_journalist (db : DB) (u : User) (jid : Nat) : SubOutcome × DB :=
  if u.role ≠ Role.reader then (SubOutcome.permError, db)
  else if ¬ db.journalists.any (fun j => j.id == jid) then (SubOutcome.targetNotFound, db)
  else
    match db.jSubs.find? fun s => s.readerId == u.id && s.journalistId == jid with
    | none =>
      (SubOutcome.created,
        { db with jSubs := db.jSubs ++
                    [{ readerId := u.id, journalistId := jid, isActive := true }] })
    | some s =>
      if s.isActive = false then
        (SubOutcome.reactivated,
          { db with jSubs :=
                      updateWhere (fun t => t.readerId == u.id && t.journalistId == jid)
                        (fun t => { t with isActive := true }) db.jSubs })
      else (SubOutcome.alreadyActive, db)

/-- unsubscribe_from_journalist (news/views.py 482-505): readers only; 404 when
the journalist does not exist; deactivate the active row when one exists,
otherwise report "not subscribed" without raising. -/
def unsubscribe_from_journalist (db : DB) (u : User) (jid : Nat) : UnsubOutcome × DB :=
  if u.role ≠ Role.reader then (UnsubOutcome.permError, db)
  else if ¬ db.journalists.any (fun j => j.id == jid) then (UnsubOutcome.targetNotFound, db)
  else
    match db.jSubs.find? fun s => s.readerId == u.id && s.journalistId == jid && s.isActive with
    | none => (UnsubOutcome.notSubscribed, db)
    | some _ =>
      (UnsubOutcome.deactivated,
        { db with jSubs :=
                    updateWhere (fun t => t.readerId == u.id && t.journalistId == jid && t.isActive)
                      (fun t => { t with isActive := false }) db.jSubs })

/-- subscribe_to_publisher (news/views.py 509-534): same shape as the
journalist version over the (reader, publisher) pair. -/
def subscribe_to_publisher (db : DB) (u : User) (pid : Nat) : SubOutcome × DB :=
  if u.role ≠ Role.reader then (SubOutcome.permError, db)
  else if ¬ db.publishers.any (fun p => p.id == pid) then (SubOutcome.targetNotFound, db)
  else
    match db.pSubs.find? fun s => s.readerId == u.id && s.publisherId == pid with
    | none =>
      (SubOutcome.created,
        { db with pSubs := db.pSubs ++
                    [{ readerId := u.id, publisherId := pid, isActive := true }] })
    | some s =>
      if s.isActive = false then
        (SubOutcome.reactivated,
          { db with pSubs :=
                      updateWhere (fun t => t.readerId == u.id && t.publisherId == pid)
                        (fun t => { t with isActive := true }) db.pSubs })
      else (SubOutcome.alreadyActive, db)

/-- unsubscribe_from_publisher (news/views.py 537-560): same shape as the
journalist version. -/
def unsubscribe_from_publisher (db : DB) (u : User) (pid : Nat) : UnsubOutcome × DB :=
  if u.role ≠ Role.reader then (UnsubOutcome.permError, db)
  else if ¬ db.publishers.any (fun p => p.id == pid) then (UnsubOutcome.targetNotFound, db)
  else
    match db.pSubs.find? fun s => s.readerId == u.id && s.publisherId == pid && s.isActive with
    | none => (UnsubOutcome.notSubscribed, db)
    | some _ =>
      (UnsubOutcome.deactivated,
        { db with pSubs :=
                    updateWhere (fun t => t.readerId == u.id && t.publisherId == pid && t.isActive)
                      (fun t => { t with isActive := false }) db.pSubs })

/-- Uniqueness of the (reader, journalist) pair across the journalist
subscription table (`unique_together ("reader", "journalist")`). -/
def jPairNodup (l : List JSub) : Prop :=
  (l.map fun s => (s.readerId, s.journalistId)).Nodup

/-- Uniqueness of the (reader, publisher) pair across the publisher
subscription table (`unique_together ("reader", "publisher")`). -/
def pPairNodup (l : List PSub) : Prop :=
  (l.map fun s => (s.readerId, s.publisherId)).Nodup

instance (l : List JSub) : Decidable (jPairNodup l) := by
  unfold jPairNodup; infer_instance

instance (l : List PSub) : Decidable (pPairNodup l) := by
  unfold pPairNodup; infer_instance

/-! ### Generic lemmas about `updateWhere` and keyed tables -/

theorem updateWhere_cons (p : α → Bool) (f : α → α) (x : α) (xs : List α) :
    updateWhere p f (x :: xs) = (if p x then f x else x) :: updateWhere p f xs := rfl

theorem length_updateWhere (p : α → Bool) (f : α → α) (l : List α) :
    (updateWhere p f l).length = l.length := List.length_map l _

theorem mem_updateWhere {p : α → Bool} {f : α → α} {l : List α} {y : α} :
    y ∈ updateWhere p f l ↔ ∃ x ∈ l, y = if p x then f x else x := by
  simp only [updateWhere, List.mem_map, eq_comm]

theorem countP_updateWhere (p q : α → Bool) (f : α → α) (h : ∀ x, q (f x) = q x)
    (l : List α) : (updateWhere p f l).countP q = l.countP q := by
  induction l with
  | nil => rfl
  | cons x xs ih =>
    rw [updateWhere_cons, List.countP_cons, List.countP_cons, ih]
    by_cases hp : p x
    · simp [hp, h x]
    · simp [hp]

theorem map_updateWhere (p : α → Bool) (f : α → α) (key : α → β)
    (h : ∀ x, key (f x) = key x) (l : List α) :
    (updateWhere p f l).map key = l.map key := by
  induction l with
  | nil => rfl
  | cons x xs ih =>
    rw [updateWhere_cons, List.map_cons, List.map_cons, ih]
    by_cases hp : p x
    · simp [hp, h x]
    · simp [hp]

theorem updateWhere_eq_self {p : α → Bool} {f : α → α} {l : List α}
    (h : ∀ x ∈ l, ¬ p x) : updateWhere p f l = l := by
  induction l with
  | nil => rfl
  | cons x xs ih =>
    rw [updateWhere_cons, if_neg (h x (List.mem_cons_self x xs))]
    rw [ih fun y hy => h y (List.mem_cons_of_mem x hy)]

theorem countP_le_one_of_nodup_key (key : α → β) (p : α → Bool) {l : List α}
    (hkey : ∀ x y, p x → p y → key x = key y) (h : (l.map key).Nodup) :
    l.countP p ≤ 1 := by
  induction l with
  | nil => simp
  | cons x xs ih =>
    rw [List.map_cons, List.nodup_cons] at h
    rw [List.countP_cons]
    by_cases hx : p x
    · have hz : xs.countP p = 0 := by
        rw [List.countP_eq_zero]
        intro s hs hps
        exact h.1 ((hkey s x hps hx) ▸ List.mem_map_of_mem key hs)
      simp [hx, hz]
    · simpa [hx] using ih h.2

theorem eq_of_nodup_key (key : α → β) {l : List α} {s t : α}
    (h : (l.map key).Nodup) (hs : s ∈ l) (ht : t ∈ l) (hk : key s = key t) :
    s = t :=
  List.inj_on_of_nodup_map h hs ht hk

/-! ### Behaviour of the subscription toggle -/

theorem countP_setActive_jSubs (rid jid : Nat) (b : Bool) (p : JSub → Bool) (l : List JSub) :
    (updateWhere p (fun t => { t with isActive := b }) l).countP
        (fun s => s.readerId == rid && s.journalistId == jid)
      = l.countP (fun s => s.readerId == rid && s.journalistId == jid) :=
  countP_updateWhere p (fun s => s.readerId == rid && s.journalistId == jid)
    (fun t => { t with isActive := b }) (fun _ => rfl) l

theorem keys_setActive_jSubs (b : Bool) (p : JSub → Bool) (l : List JSub) :
    (updateWhere p (fun t => { t with isActive := b }) l).map
        (fun s => (s.readerId, s.journalistId))
      = l.map (fun s => (s.readerId, s.journalistId)) :=
  map_updateWhere p (fun t => { t with isActive := b })
    (fun s => (s.readerId, s.journalistId)) (fun _ => rfl) l

theorem countP_setActive_pSubs (rid pid : Nat) (b : Bool) (p : PSub → Bool) (l : List PSub) :
    (updateWhere p (fun t => { t with isActive := b }) l).countP
        (fun s => s.readerId == rid && s.publisherId == pid)
      = l.countP (fun s => s.readerId == rid && s.publisherId == pid) :=
  countP_updateWhere p (fun s => s.readerId == rid && s.publisherId == pid)
    (fun t => { t with isActive := b }) (fun _ => rfl) l

theorem keys_setActive_pSubs (b : Bool) (p : PSub → Bool) (l : List PSub) :
    (updateWhere p (fun t => { t with isActive := b }) l).map
        (fun s => (s.readerId, s.publisherId))
      = l.map (fun s => (s.readerId, s.publisherId)) :=
  map_updateWhere p (fun t => { t with isActive := b })
    (fun s => (s.readerId, s.publisherId)) (fun _ => rfl) l

theorem subscribeJ_spec (db : DB) (u : User) (jid : Nat)
    (hrole : u.role = Role.reader) (hj : ∃ j ∈ db.journalists, j.id = jid)
    (hnd : jPairNodup db.jSubs) :
    ((subscribe_to_journalist db u jid).2.jSubs.countP
        (fun s => s.readerId == u.id && s.journalistId == jid) = 1)
    ∧ (∀ s ∈ (subscribe_to_journalist db u jid).2.jSubs,
        s.readerId = u.id → s.journalistId = jid → s.isActive = true)
    ∧ jPairNodup (subscribe_to_journalist db u jid).2.jSubs
    ∧ (subscribe_to_journalist db u jid).2.journalists = db.journalists := by
  have hany : db.journalists.any (fun j => j.id == jid) = true := by
    rcases hj with ⟨j, hjm, hje⟩
    exact List.any_eq_true.mpr ⟨j, hjm, by simp [hje]⟩
  have hkey : ∀ x y : JSub, (x.readerId == u.id && x.journalistId == jid)
      → (y.readerId == u.id && y.journalistId == jid)
      → (x.readerId, x.journalistId) = (y.readerId, y.journalistId) := by
    intro x y hx hy
    simp only [Bool.and_eq_true, beq_iff_eq] at hx hy
    simp [hx.1, hx.2, hy.1, hy.2]
  unfold subscribe_to_journalist
  rw [if_neg (by simp [hrole]), if_neg (by simp [hany])]
  cases hfind : db.jSubs.find? fun s => s.readerId == u.id && s.journalistId == jid with
  | none =>
    have hnone := List.find?_eq_none.mp hfind
    refine ⟨?_, ?_, ?_, rfl⟩
    · rw [List.countP_append, List.countP_eq_zero.mpr hnone]
      simp
    · intro s hs hr hjd
      rcases List.mem_append.mp hs with h | h
      · exact absurd (by simp [hr, hjd]) (hnone s h)
      · simp only [List.mem_singleton] at h
        rw [h]
    · unfold jPairNodup at hnd ⊢
      rw [List.map_append, List.nodup_append]
      refine ⟨hnd, by simp, ?_⟩
      intro k hk hk'
      simp only [List.map_cons, List.map_nil, List.mem_singleton] at hk'
      rcases List.mem_map.mp hk with ⟨x, hx, hxk⟩
      rw [hk'] at hxk
      have : x.readerId == u.id && x.journalistId == jid := by
        have h1 : x.readerId = u.id := congrArg Prod.fst hxk
        have h2 : x.journalistId = jid := congrArg Prod.snd hxk
        simp [h1, h2]
      exact hnone x hx this
  | some s =>
    dsimp only
    have hmem := List.mem_of_find?_eq_some hfind
    have hps := List.find?_some hfind
    have hcount : db.jSubs.countP (fun s => s.readerId == u.id && s.journalistId == jid) = 1 :=
      Nat.le_antisymm (countP_le_one_of_nodup_key _ _ hkey hnd)
        (List.countP_pos_iff.mpr ⟨s, hmem, hps⟩)
    by_cases hact : s.isActive = false
    · rw [if_pos hact]
      dsimp only
      refine ⟨?_, ?_, ?_, rfl⟩
      · rw [countP_setActive_jSubs, hcount]
      · intro t ht hr hjd
        rcases mem_updateWhere.mp ht with ⟨x, hx, hxt⟩
        by_cases hpx : (x.readerId == u.id && x.journalistId == jid) = true
        · rw [if_pos hpx] at hxt
          rw [hxt]
        · rw [if_neg hpx] at hxt
          exact absurd (hxt ▸ (by simp [hr, hjd])) hpx
      · unfold jPairNodup at hnd ⊢
        rw [keys_setActive_jSubs]
        exact hnd
    · rw [if_neg hact]
      dsimp only
      refine ⟨hcount, ?_, hnd, rfl⟩
      intro t ht hr hjd
      have hndu : (db.jSubs.map fun s => (s.readerId, s.journalistId)).Nodup := hnd
      have : t = s := by
        apply eq_of_nodup_key (fun s => (s.readerId, s.journalistId)) hndu ht hmem
        simp only [Bool.and_eq_true, beq_iff_eq] at hps
        simp [hr, hjd, hps.1, hps.2]
      rw [this]
      exact Bool.not_eq_false s.isActive |>.mp hact

theorem subscribeJ_already (db : DB) (u : User) (jid : Nat)
    (hrole : u.role = Role.reader) (hj : ∃ j ∈ db.journalists, j.id = jid)
    (hact : ∀ s ∈ db.jSubs, s.readerId = u.id → s.journalistId = jid → s.isActive = true)
    (hex : ∃ s ∈ db.jSubs, s.readerId = u.id ∧ s.journalistId = jid) :
    subscribe_to_journalist db u jid = (SubOutcome.alreadyActive, db) := by
  have hany : db.journalists.any (fun j => j.id == jid) = true := by
    rcases hj with ⟨j, hjm, hje⟩
    exact List.any_eq_true.mpr ⟨j, hjm, by simp [hje]⟩
  unfold subscribe_to_journalist
  rw [if_neg (by simp [hrole]), if_neg (by simp [hany])]
  cases hfind : db.jSubs.find? fun s => s.readerId == u.id && s.journalistId == jid with
  | none =>
    rcases hex with ⟨s, hs, hr, hjd⟩
    exact absurd (by simp [hr, hjd]) (List.find?_eq_none.mp hfind s hs)
  | some s =>
    dsimp only
    have hmem := List.mem_of_find?_eq_some hfind
    have hps := List.find?_some hfind
    simp only [Bool.and_eq_true, beq_iff_eq] at hps
    rw [if_neg (by simp [hact s hmem hps.1 hps.2])]

theorem unsubscribeJ_noop (db : DB) (u : User) (jid : Nat)
    (hrole : u.role = Role.reader) (hj : ∃ j ∈ db.journalists, j.id = jid)
    (hinact : ∀ s ∈ db.jSubs, s.readerId = u.id → s.journalistId = jid → s.isActive = false) :
    unsubscribe_from_journalist db u jid = (UnsubOutcome.notSubscribed, db) := by
  have hany : db.journalists.any (fun j => j.id == jid) = true := by
    rcases hj with ⟨j, hjm, hje⟩
    exact List.any_eq_true.mpr ⟨j, hjm, by simp [hje]⟩
  unfold unsubscribe_from_journalist
  rw [if_neg (by simp [hrole]), if_neg (by simp [hany])]
  have hnone : (db.jSubs.find? fun s =>
      s.readerId == u.id && s.journalistId == jid && s.isActive) = none := by
    rw [List.find?_eq_none]
    intro s hs hp
    simp only [Bool.and_eq_true, beq_iff_eq] at hp
    rw [hinact s hs hp.1.1 hp.1.2] at hp
    exact Bool.false_ne_true hp.2
  rw [hnone]

theorem unsubscribeJ_spec (db : DB) (u : User) (jid : Nat)
    (hrole : u.role = Role.reader) (hj : ∃ j ∈ db.journalists, j.id = jid)
    (hex : activeJSubTo db u jid) :
    (unsubscribe_from_journalist db u jid).1 = UnsubOutcome.deactivated
    ∧ (unsubscribe_from_journalist db u jid).2.jSubs.length = db.jSubs.length
    ∧ (∀ s ∈ (unsubscribe_from_journalist db u jid).2.jSubs,
        s.readerId = u.id → s.journalistId = jid → s.isActive = false) := by
  have hany : db.journalists.any (fun j => j.id == jid) = true := by
    rcases hj with ⟨j, hjm, hje⟩
    exact List.any_eq_true.mpr ⟨j, hjm, by simp [hje]⟩
  unfold unsubscribe_from_journalist
  rw [if_neg (by simp [hrole]), if_neg (by simp [hany])]
  cases hfind : db.jSubs.find? fun s =>
      s.readerId == u.id && s.journalistId == jid && s.isActive with
  | none =>
    rcases hex with ⟨s, hs, hr, hjd, ha⟩
    exact absurd (by simp [hr, hjd, ha]) (List.find?_eq_none.mp hfind s hs)
  | some s =>
    dsimp only
    refine ⟨rfl, length_updateWhere _ _ _, ?_⟩
    intro t ht hr hjd
    rcases mem_updateWhere.mp ht with ⟨x, hx, hxt⟩
    by_cases hpx : (x.readerId == u.id && x.journalistId == jid && x.isActive) = true
    · rw [if_pos hpx] at hxt
      rw [hxt]
    · rw [if_neg hpx] at hxt
      by_contra hta
      rw [Bool.not_eq_false] at hta
      exact hpx (hxt ▸ (by simp [hr, hjd, hta]))

theorem subscribeP_spec (db : DB) (u : User) (pid : Nat)
    (hrole : u.role = Role.reader) (hp : ∃ p ∈ db.publishers, p.id = pid)
    (hnd : pPairNodup db.pSubs) :
    ((subscribe_to_publisher db u pid).2.pSubs.countP
        (fun s => s.readerId == u.id && s.publisherId == pid) = 1)
    ∧ (∀ s ∈ (subscribe_to_publisher db u pid).2.pSubs,
        s.readerId = u.id → s.publisherId = pid → s.isActive = true)
    ∧ pPairNodup (subscribe_to_publisher db u pid).2.pSubs
    ∧ (subscribe_to_publisher db u pid).2.publishers = db.publishers := by
  have hany : db.publishers.any (fun p => p.id == pid) = true := by
    rcases hp with ⟨p, hpm, hpe⟩
    exact List.any_eq_true.mpr ⟨p, hpm, by simp [hpe]⟩
  have hkey : ∀ x y : PSub, (x.readerId == u.id && x.publisherId == pid)
      → (y.readerId == u.id && y.publisherId == pid)
      → (x.readerId, x.publisherId) = (y.readerId, y.publisherId) := by
    intro x y hx hy
    simp only [Bool.and_eq_true, beq_iff_eq] at hx hy
    simp [hx.1, hx.2, hy.1, hy.2]
  unfold subscribe_to_publisher
  rw [if_neg (by simp [hrole]), if_neg (by simp [hany])]
  cases hfind : db.pSubs.find? fun s => s.readerId == u.id && s.publisherId == pid with
  | none =>
    have hnone := List.find?_eq_none.mp hfind
    refine ⟨?_, ?_, ?_, rfl⟩
    · rw [List.countP_append, List.countP_eq_zero.mpr hnone]
      simp
    · intro s hs hr hpd
      rcases List.mem_append.mp hs with h | h
      · exact absurd (by simp [hr, hpd]) (hnone s h)
      · simp only [List.mem_singleton] at h
        rw [h]
    · unfold pPairNodup at hnd ⊢
      rw [List.map_append, List.nodup_append]
      refine ⟨hnd, by simp, ?_⟩
      intro k hk hk'
      simp only [List.map_cons, List.map_nil, List.mem_singleton] at hk'
      rcases List.mem_map.mp hk with ⟨x, hx, hxk⟩
      rw [hk'] at hxk
      have : x.readerId == u.id && x.publisherId == pid := by
        have h1 : x.readerId = u.id := congrArg Prod.fst hxk
        have h2 : x.publisherId = pid := congrArg Prod.snd hxk
        simp [h1, h2]
      exact hnone x hx this
  | some s =>
    dsimp only
    have hmem := List.mem_of_find?_eq_some hfind
    have hps := List.find?_some hfind
    have hcount : db.pSubs.countP (fun s => s.readerId == u.id && s.publisherId == pid) = 1 :=
      Nat.le_antisymm (countP_le_one_of_nodup_key _ _ hkey hnd)
        (List.countP_pos_iff.mpr ⟨s, hmem, hps⟩)
    by_cases hact : s.isActive = false
    · rw [if_pos hact]
      dsimp only
      refine ⟨?_, ?_, ?_, rfl⟩
      · rw [countP_setActive_pSubs, hcount]
      · intro t ht hr hpd
        rcases mem_updateWhere.mp ht with ⟨x, hx, hxt⟩
        by_cases hpx : (x.readerId == u.id && x.publisherId == pid) = true
        · rw [if_pos hpx] at hxt
          rw [hxt]
        · rw [if_neg hpx] at hxt
          exact absurd (hxt ▸ (by simp [hr, hpd])) hpx
      · unfold pPairNodup at hnd ⊢
        rw [keys_setActive_pSubs]
        exact hnd
    · rw [if_neg hact]
      dsimp only
      refine ⟨hcount, ?_, hnd, rfl⟩
      intro t ht hr hpd
      have hndu : (db.pSubs.map fun s => (s.readerId, s.publisherId)).Nodup := hnd
      have : t = s := by
        apply eq_of_nodup_key (fun s => (s.readerId, s.publisherId)) hndu ht hmem
        simp only [Bool.and_eq_true, beq_iff_eq] at hps
        simp [hr, hpd, hps.1, hps.2]
      rw [this]
      exact Bool.not_eq_false s.isActive |>.mp hact

theorem subscribeP_already (db : DB) (u : User) (pid : Nat)
    (hrole : u.role = Role.reader) (hp : ∃ p ∈ db.publishers, p.id = pid)
    (hact : ∀ s ∈ db.pSubs, s.readerId = u.id → s.publisherId = pid → s.isActive = true)
    (hex : ∃ s ∈ db.pSubs, s.readerId = u.id ∧ s.publisherId = pid) :
    subscribe_to_publisher db u pid = (SubOutcome.alreadyActive, db) := by
  have hany : db.publishers.any (fun p => p.id == pid) = true := by
    rcases hp with ⟨p, hpm, hpe⟩
    exact List.any_eq_true.mpr ⟨p, hpm, by simp [hpe]⟩
  unfold subscribe_to_publisher
  rw [if_neg (by simp [hrole]), if_neg (by simp [hany])]
  cases hfind : db.pSubs.find? fun s => s.readerId == u.id && s.publisherId == pid with
  | none =>
    rcases hex with ⟨s, hs, hr, hpd⟩
    exact absurd (by simp [hr, hpd]) (List.find?_eq_none.mp hfind s hs)
  | some s =>
    dsimp only
    have hmem := List.mem_of_find?_eq_some hfind
    have hps := List.find?_some hfind
    simp only [Bool.and_eq_true, beq_iff_eq] at hps
    rw [if_neg (by simp [hact s hmem hps.1 hps.2])]

theorem unsubscribeP_noop (db : DB) (u : User) (pid : Nat)
    (hrole : u.role = Role.reader) (hp : ∃ p ∈ db.publishers, p.id = pid)
    (hinact : ∀ s ∈ db.pSubs, s.readerId = u.id → s.publisherId = pid → s.isActive = false) :
    unsubscribe_from_publisher db u pid = (UnsubOutcome.notSubscribed, db) := by
  have hany : db.publishers.any (fun p => p.id == pid) = true := by
    rcases hp with ⟨p, hpm, hpe⟩
    exact List.any_eq_true.mpr ⟨p, hpm, by simp [hpe]⟩
  unfold unsubscribe_from_publisher
  rw [if_neg (by simp [hrole]), if_neg (by simp [hany])]
  have hnone : (db.pSubs.find? fun s =>
      s.readerId == u.id && s.publisherId == pid && s.isActive) = none := by
    rw [List.find?_eq_none]
    intro s hs hq
    simp only [Bool.and_eq_true, beq_iff_eq] at hq
    rw [hinact s hs hq.1.1 hq.1.2] at hq
    exact Bool.false_ne_true hq.2
  rw [hnone]

theorem unsubscribeP_spec (db : DB) (u : User) (pid : Nat)
    (hrole : u.role = Role.reader) (hp : ∃ p ∈ db.publishers, p.id = pid)
    (hex : activePSubTo db u pid) :
    (unsubscribe_from_publisher db u pid).1 = UnsubOutcome.deactivated
    ∧ (unsubscribe_from_publisher db u pid).2.pSubs.length = db.pSubs.length
    ∧ (∀ s ∈ (unsubscribe_from_publisher db u pid).2.pSubs,
        s.readerId = u.id → s.publisherId = pid → s.isActive = false) := by
  have hany : db.publishers.any (fun p => p.id == pid) = true := by
    rcases hp with ⟨p, hpm, hpe⟩
    exact List.any_eq_true.mpr ⟨p, hpm, by simp [hpe]⟩
  unfold unsubscribe_from_publisher
  rw [if_neg (by simp [hrole]), if_neg (by simp [hany])]
  cases hfind : db.pSubs.find? fun s =>
      s.readerId == u.id && s.publisherId == pid && s.isActive with
  | none =>
    rcases hex with ⟨s, hs, hr, hpd, ha⟩
    exact absurd (by simp [hr, hpd, ha]) (List.find?_eq_none.mp hfind s hs)
  | some s =>
    dsimp only
    refine ⟨rfl, length_updateWhere _ _ _, ?_⟩
    intro t ht hr hpd
    rcases mem_updateWhere.mp ht with ⟨x, hx, hxt⟩
    by_cases hpx : (x.readerId == u.id && x.publisherId == pid && x.isActive) = true
    · rw [if_pos hpx] at hxt
      rw [hxt]
    · rw [if_neg hpx] at hxt
      by_contra hta
      rw [Bool.not_eq_false] at hta
      exact hpx (hxt ▸ (by simp [hr, hpd, hta]))

/-! ### Concrete example state used by the witness theorems -/

/-- Example reader "alice" (id 1) with one journalist and one publisher
subscription in `exDB`. -/
def exAlice : User := { id := 1, username := "alice", email := "alice@x", password := "p1", role := Role.reader }

/-- Example journalist user "bob" (id 2), owner of journalist profile 1. -/
def exBob : User := { id := 2, username := "bob", email := "bob@x", password := "p2", role := Role.journalist }

/-- Example editor user "carol" (id 3), editor of publisher 1. -/
def exCarol : User := { id := 3, username := "carol", email := "carol@x", password := "p3", role := Role.editor }

/-- Example publisher user "dave" (id 4), owner of publisher 1 ("Acme"). -/
def exDave : User := { id := 4, username := "dave", email := "dave@x", password := "p4", role := Role.publisher }

/-- Example reader "erin" (id 5) with no subscriptions. -/
def exErin : User := { id := 5, username := "erin", email := "erin@x", password := "p5", role := Role.reader }

/-- Example approved article (id 1) by journalist 1 / publisher 1. -/
def exArticleApproved : Article :=
  { id := 1, title := "T1", content := "B1", journalistId := 1, publisherId := 1,
    status := ReviewStatus.approved, createdAt := 10 }

/-- Example pending article (id 2) by journalist 1 / publisher 1. -/
def exArticlePending : Article :=
  { id := 2, title := "T2", content := "B2", journalistId := 1, publisherId := 1,
    status := ReviewStatus.pending, createdAt := 20 }

/-- Example rejected article (id 3) by journalist 1 / publisher 1. -/
def exArticleRejected : Article :=
  { id := 3, title := "T3", content := "B3", journalistId := 1, publisherId := 1,
    status := ReviewStatus.rejected, createdAt := 30 }

/-- Concrete database state for the witness theorems: one publisher "Acme"
(id 1, owned by dave), one editor (carol), one journalist profile (id 1, bob),
three articles in the three statuses, reader alice subscribed to both the
journalist and the publisher, reader erin with no subscriptions. -/
def exDB : DB :=
  { users := [exAlice, exBob, exCarol, exDave, exErin]
    publishers := [{ id := 1, userId := 4, name := "Acme" }]
    editors := [{ userId := 3, publisherId := 1 }]
    journalists := [{ id := 1, userId := 2, publisherId := 1 }]
    articles := [exArticleApproved, exArticlePending, exArticleRejected]
    newsletters := [{ id := 1, title := "N1", content := "NB1", journalistId := 1, publisherId := 1, createdAt := 5 }]
    jSubs := [{ readerId := 1, journalistId := 1, isActive := true }]
    pSubs := [{ readerId := 1, publisherId := 1, isActive := true }]
    applications := [{ id := 1, userId := 1, appliedRole := Role.journalist, status := ReviewStatus.pending }]
    resetTokens := []
    now := 1000
    nextId := 100 }

end NewsApp

namespace NewsApp

/-- C1: for a user whose role is not reader, `visible_articles` returns exactly
the approved articles; for a reader it returns exactly the approved articles
whose journalist or publisher is an active subscription target of that reader;
in both cases the result is ordered by creation time descending, and when the
article table has no duplicate rows no article appears twice (an article
matching via both a journalist and a publisher subscription appears once). -/
theorem C1_visible_articles_correct (db : DB) (u : User) :
    (u.role ≠ Role.reader →
      ∀ a, a ∈ visible_articles db u ↔ a ∈ db.articles ∧ a.status = ReviewStatus.approved)
    ∧ (u.role = Role.reader →
      ∀ a, a ∈ visible_articles db u ↔
        a ∈ db.articles ∧ a.status = ReviewStatus.approved ∧
          (activeJSubTo db u a.journalistId ∨ activePSubTo db u a.publisherId))
    ∧ List.Sorted createdDescA (visible_articles db u)
    ∧ (db.articles.Nodup → (visible_articles db u).Nodup) := by
  refine ⟨?_, ?_, ?_, ?_⟩
  · intro hrole a
    rw [visible_articles, if_neg hrole, mem_orderByCreatedDesc]
    simp [List.mem_filter]
  · intro hrole a
    rw [visible_articles, if_pos hrole, mem_orderByCreatedDesc]
    simp only [List.mem_filter, Bool.or_eq_true, List.elem_iff,
      mem_subscribedJournalistIds, mem_subscribedPublisherIds, beq_iff_eq]
    tauto
  · unfold visible_articles
    split
    · exact sorted_orderByCreatedDesc _
    · exact sorted_orderByCreatedDesc _
  · intro hnd
    unfold visible_articles
    split
    · exact nodup_orderByCreatedDesc _ ((hnd.filter _).filter _)
    · exact nodup_orderByCreatedDesc _ (hnd.filter _)

/-- C1 witness: in the concrete state, reader alice (subscribed to journalist 1
and publisher 1) sees the approved article, and it appears exactly once. -/
theorem C1_visible_articles_correct_witness :
    exArticleApproved ∈ visible_articles exDB exAlice
      ∧ (visible_articles exDB exAlice).Nodup :=
  ⟨((C1_visible_articles_correct exDB exAlice).2.1 rfl exArticleApproved).mpr
    (by refine ⟨by decide, by decide, Or.inl ?_⟩
        exact ⟨{ readerId := 1, journalistId := 1, isActive := true }, by decide, by decide, by decide, by decide⟩),
  (C1_visible_articles_correct exDB exAlice).2.2.2 (by decide)⟩

end NewsApp


namespace NewsApp

/-- C5: subscribe and unsubscribe are permission-gated to readers and
idempotent.  For a reader and an existing target with the unique-pair
constraint in force: subscribing leaves exactly one row for the pair and it is
active (creating, reactivating, or leaving an active row untouched), and an
immediately repeated subscribe is a recognised no-op that changes nothing;
unsubscribing when no active row exists is a no-op that returns normally;
unsubscribing an active row deactivates it without deleting any row; every
operation fails with a permission error when the caller is not a reader. -/
theorem C5_subscription_toggle (db : DB) (u : User) (jid pid : Nat) :
    (u.role ≠ Role.reader →
      subscribe_to_journalist db u jid = (SubOutcome.permError, db)
      ∧ unsubscribe_from_journalist db u jid = (UnsubOutcome.permError, db)
      ∧ subscribe_to_publisher db u pid = (SubOutcome.permError, db)
      ∧ unsubscribe_from_publisher db u pid = (UnsubOutcome.permError, db))
    ∧ (u.role = Role.reader → (∃ j ∈ db.journalists, j.id = jid) → jPairNodup db.jSubs →
      ((subscribe_to_journalist db u jid).2.jSubs.countP
          (fun s => s.readerId == u.id && s.journalistId == jid) = 1)
      ∧ (∀ s ∈ (subscribe_to_journalist db u jid).2.jSubs,
          s.readerId = u.id → s.journalistId = jid → s.isActive = true)
      ∧ subscribe_to_journalist (subscribe_to_journalist db u jid).2 u jid
          = (SubOutcome.alreadyActive, (subscribe_to_journalist db u jid).2))
    ∧ (u.role = Role.reader → (∃ p ∈ db.publishers, p.id = pid) → pPairNodup db.pSubs →
      ((subscribe_to_publisher db u pid).2.pSubs.countP
          (fun s => s.readerId == u.id && s.publisherId == pid) = 1)
      ∧ (∀ s ∈ (subscribe_to_publisher db u pid).2.pSubs,
          s.readerId = u.id → s.publisherId = pid → s.isActive = true)
      ∧ subscribe_to_publisher (subscribe_to_publisher db u pid).2 u pid
          = (SubOutcome.alreadyActive, (subscribe_to_publisher db u pid).2))
    ∧ (u.role = Role.reader → (∃ j ∈ db.journalists, j.id = jid) →
      (∀ s ∈ db.jSubs, s.readerId = u.id → s.journalistId = jid → s.isActive = false) →
      unsubscribe_from_journalist db u jid = (UnsubOutcome.notSubscribed, db))
    ∧ (u.role = Role.reader → (∃ p ∈ db.publishers, p.id = pid) →
      (∀ s ∈ db.pSubs, s.readerId = u.id → s.publisherId = pid → s.isActive = false) →
      unsubscribe_from_publisher db u pid = (UnsubOutcome.notSubscribed, db))
    ∧ (u.role = Role.reader → (∃ j ∈ db.journalists, j.id = jid) → activeJSubTo db u jid →
      (unsubscribe_from_journalist db u jid).1 = UnsubOutcome.deactivated
      ∧ (unsubscribe_from_journalist db u jid).2.jSubs.length = db.jSubs.length
      ∧ (∀ s ∈ (unsubscribe_from_journalist db u jid).2.jSubs,
          s.readerId = u.id → s.journalistId = jid → s.isActive = false))
    ∧ (u.role = Role.reader → (∃ p ∈ db.publishers, p.id = pid) → activePSubTo db u pid →
      (unsubscribe_from_publisher db u pid).1 = UnsubOutcome.deactivated
      ∧ (unsubscribe_from_publisher db u pid).2.pSubs.length = db.pSubs.length
      ∧ (∀ s ∈ (unsubscribe_from_publisher db u pid).2.pSubs,
          s.readerId = u.id → s.publisherId = pid → s.isActive = false)) := by
  refine ⟨?_, ?_, ?_, ?_, ?_, ?_, ?_⟩
  · intro h
    refine ⟨?_, ?_, ?_, ?_⟩
    · unfold subscribe_to_journalist
      rw [if_pos h]
    · unfold unsubscribe_from_journalist
      rw [if_pos h]
    · unfold subscribe_to_publisher
      rw [if_pos h]
    · unfold unsubscribe_from_publisher
      rw [if_pos h]
  · intro hrole hj hnd
    obtain ⟨hc, hall, hnd', hjour⟩ := subscribeJ_spec db u jid hrole hj hnd
    refine ⟨hc, hall, ?_⟩
    refine subscribeJ_already _ u jid hrole (by rw [hjour]; exact hj) hall ?_
    have hpos : 0 < (subscribe_to_journalist db u jid).2.jSubs.countP
        (fun s => s.readerId == u.id && s.journalistId == jid) := by
      rw [hc]; exact Nat.one_pos
    rcases List.countP_pos_iff.mp hpos with ⟨s, hs, hpsb⟩
    simp only [Bool.and_eq_true, beq_iff_eq] at hpsb
    exact ⟨s, hs, hpsb.1, hpsb.2⟩
  · intro hrole hp hnd
    obtain ⟨hc, hall, hnd', hpubs⟩ := subscribeP_spec db u pid hrole hp hnd
    refine ⟨hc, hall, ?_⟩
    refine subscribeP_already _ u pid hrole (by rw [hpubs]; exact hp) hall ?_
    have hpos : 0 < (subscribe_to_publisher db u pid).2.pSubs.countP
        (fun s => s.readerId == u.id && s.publisherId == pid) := by
      rw [hc]; exact Nat.one_pos
    rcases List.countP_pos_iff.mp hpos with ⟨s, hs, hpsb⟩
    simp only [Bool.and_eq_true, beq_iff_eq] at hpsb
    exact ⟨s, hs, hpsb.1, hpsb.2⟩
  · exact fun hrole hj hinact => unsubscribeJ_noop db u jid hrole hj hinact
  · exact fun hrole hp hinact => unsubscribeP_noop db u pid hrole hp hinact
  · exact fun hrole hj hex => unsubscribeJ_spec db u jid hrole hj hex
  · exact fun hrole hp hex => unsubscribeP_spec db u pid hrole hp hex

/-- C5 witness: reader erin subscribing to journalist 1 in the concrete state
ends with exactly one active row for the pair. -/
theorem C5_subscription_toggle_witness :
    (subscribe_to_journalist exDB exErin 1).2.jSubs.countP
        (fun s => s.readerId == exErin.id && s.journalistId == 1) = 1 :=
  ((C5_subscription_toggle exDB exErin 1 1).2.1 rfl
    ⟨{ id := 1, userId := 2, publisherId := 1 }, by decide, rfl⟩ (by decide)).1

end NewsApp

namespace NewsApp

/-- Result of the filtered single-target article queries: 400 with an error
payload, 403 with an error payload, or 200 with the serialized list. -/
inductive QueryResult where
  | badRequest (msg : String)
  | forbidden (msg : String)
  | ok (articles : List Article)
  deriving DecidableEq, Repr

/-- ArticleViewSet.by_journalist (news/api/views.py 119-151): 400 when the
`journalist_id` query parameter is missing; 403 when the caller is a reader
without an active subscription to that journalist; otherwise the approved
articles of that journalist, newest first. -/
def by_journalist (db : DB) (u : User) (param : Option Nat) : QueryResult :=
  match param with
  | none => QueryResult.badRequest "journalist_id parameter is required"
  | some jid =>
    if u.role = Role.reader ∧ ¬ activeJSubTo db u jid then
      QueryResult.forbidden "You are not subscribed to this journalist"
    else
      QueryResult.ok (orderByCreatedDesc (db.articles.filter
        fun a => a.journalistId == jid && a.status == ReviewStatus.approved))

/-- ArticleViewSet.by_publisher (news/api/views.py 153-185): the publisher
analogue of `by_journalist`. -/
def by_publisher (db : DB) (u : User) (param : Option Nat) : QueryResult :=
  match param with
  | none => QueryResult.badRequest "publisher_id parameter is required"
  | some pid =>
    if u.role = Role.reader ∧ ¬ activePSubTo db u pid then
      QueryResult.forbidden "You are not subscribed to this publisher"
    else
      QueryResult.ok (orderByCreatedDesc (db.articles.filter
        fun a => a.publisherId == pid && a.status == ReviewStatus.approved))

/-- article_list (news/views.py 132-137): the server-rendered article list
page shows every approved article, newest first, for any logged-in user; it
reads no subscription data. -/
def article_list (db : DB) : List Article :=
  orderByCreatedDesc (db.articles.filter fun a => a.status == ReviewStatus.approved)

/-- newsletter_list (news/views.py 683-694): the server-rendered newsletter
list page shows every newsletter, newest first; it reads no subscription
data and no status field exists. -/
def newsletter_list (db : DB) : List Newsletter :=
  orderByCreatedDescN db.newsletters

/-- C6: for both filtered single-target queries, a missing id parameter gives
a 400 validation error with an error payload; a reader without an active
subscription to exactly that target gets a 403 permission error; any other
caller (subscribed reader or non-reader) gets exactly the approved articles of
the target — in particular, when no journalist (resp. publisher) with that id
exists and articles reference only existing targets, the result is the empty
list, not an error. -/
theorem C6_by_target_queries (db : DB) (u : User) (jid pid : Nat) :
    (by_journalist db u none = QueryResult.badRequest "journalist_id parameter is required")
    ∧ (by_publisher db u none = QueryResult.badRequest "publisher_id parameter is required")
    ∧ (u.role = Role.reader → ¬ activeJSubTo db u jid →
        by_journalist db u (some jid) = QueryResult.forbidden "You are not subscribed to this journalist")
    ∧ (u.role = Role.reader → ¬ activePSubTo db u pid →
        by_publisher db u (some pid) = QueryResult.forbidden "You are not subscribed to this publisher")
    ∧ (u.role ≠ Role.reader ∨ activeJSubTo db u jid →
        ∃ l, by_journalist db u (some jid) = QueryResult.ok l
          ∧ ∀ a, a ∈ l ↔ a ∈ db.articles ∧ a.journalistId = jid ∧ a.status = ReviewStatus.approved)
    ∧ (u.role ≠ Role.reader ∨ activePSubTo db u pid →
        ∃ l, by_publisher db u (some pid) = QueryResult.ok l
          ∧ ∀ a, a ∈ l ↔ a ∈ db.articles ∧ a.publisherId = pid ∧ a.status = ReviewStatus.approved)
    ∧ ((∀ j ∈ db.journalists, j.id ≠ jid) →
        (∀ a ∈ db.articles, ∃ j ∈ db.journalists, a.journalistId = j.id) →
        u.role ≠ Role.reader ∨ activeJSubTo db u jid →
        by_journalist db u (some jid) = QueryResult.ok [])
    ∧ ((∀ p ∈ db.publishers, p.id ≠ pid) →
        (∀ a ∈ db.articles, ∃ p ∈ db.publishers, a.publisherId = p.id) →
        u.role ≠ Role.reader ∨ activePSubTo db u pid →
        by_publisher db u (some pid) = QueryResult.ok []) := by
  have hnegJ : (u.role ≠ Role.reader ∨ activeJSubTo db u jid) →
      ¬ (u.role = Role.reader ∧ ¬ activeJSubTo db u jid) := by
    rintro (h | h) ⟨h1, h2⟩
    · exact h h1
    · exact h2 h
  have hnegP : (u.role ≠ Role.reader ∨ activePSubTo db u pid) →
      ¬ (u.role = Role.reader ∧ ¬ activePSubTo db u pid) := by
    rintro (h | h) ⟨h1, h2⟩
    · exact h h1
    · exact h2 h
  refine ⟨rfl, rfl, ?_, ?_, ?_, ?_, ?_, ?_⟩
  · intro h1 h2
    unfold by_journalist
    dsimp only
    rw [if_pos ⟨h1, h2⟩]
  · intro h1 h2
    unfold by_publisher
    dsimp only
    rw [if_pos ⟨h1, h2⟩]
  · intro h
    refine ⟨_, by unfold by_journalist; dsimp only; rw [if_neg (hnegJ h)], ?_⟩
    intro a
    rw [mem_orderByCreatedDesc]
    simp [List.mem_filter, and_assoc]
  · intro h
    refine ⟨_, by unfold by_publisher; dsimp only; rw [if_neg (hnegP h)], ?_⟩
    intro a
    rw [mem_orderByCreatedDesc]
    simp [List.mem_filter, and_assoc]
  · intro hnoj hfk h
    unfold by_journalist
    dsimp only
    rw [if_neg (hnegJ h)]
    have : db.articles.filter
        (fun a => a.journalistId == jid && a.status == ReviewStatus.approved) = [] := by
      rw [List.filter_eq_nil]
      intro a ha hpa
      simp only [Bool.and_eq_true, beq_iff_eq] at hpa
      rcases hfk a ha with ⟨j, hj, hje⟩
      exact hnoj j hj (hje ▸ hpa.1)
    rw [this]
    rfl
  · intro hnop hfk h
    unfold by_publisher
    dsimp only
    rw [if_neg (hnegP h)]
    have : db.articles.filter
        (fun a => a.publisherId == pid && a.status == ReviewStatus.approved) = [] := by
      rw [List.filter_eq_nil]
      intro a ha hpa
      simp only [Bool.and_eq_true, beq_iff_eq] at hpa
      rcases hfk a ha with ⟨p, hp, hpe⟩
      exact hnop p hp (hpe ▸ hpa.1)
    rw [this]
    rfl

/-- C6 witness: the non-reader bob querying journalist 1 in the concrete state
gets a 200 result containing the approved article. -/
theorem C6_by_target_queries_witness :
    ∃ l, by_journalist exDB exBob (some 1) = QueryResult.ok l
      ∧ ∀ a, a ∈ l ↔ a ∈ exDB.articles ∧ a.journalistId = 1 ∧ a.status = ReviewStatus.approved :=
  (C6_by_target_queries exDB exBob 1 1).2.2.2.2.1 (Or.inl (by decide))

/-- C10 (implicit): the server-rendered list pages apply no subscription
filtering — the article list page result is exactly the approved articles and
the newsletter list page result is exactly all newsletters, and both are
unchanged under arbitrary replacement of the subscription tables, so a reader
with zero active subscriptions still sees every approved article and every
newsletter on the page views. -/
theorem C10_page_views_unfiltered (db : DB) (jS : List JSub) (pS : List PSub) :
    article_list { db with jSubs := jS, pSubs := pS } = article_list db
    ∧ newsletter_list { db with jSubs := jS, pSubs := pS } = newsletter_list db
    ∧ (∀ a, a ∈ article_list db ↔ a ∈ db.articles ∧ a.status = ReviewStatus.approved)
    ∧ (∀ n, n ∈ newsletter_list db ↔ n ∈ db.newsletters) := by
  refine ⟨rfl, rfl, ?_, ?_⟩
  · intro a
    unfold article_list
    rw [mem_orderByCreatedDesc]
    simp [List.mem_filter]
  · intro n
    unfold newsletter_list
    rw [mem_orderByCreatedDescN]

/-- C10 witness: with every subscription removed, reader-independent page
views still contain the approved article and the newsletter. -/
theorem C10_page_views_unfiltered_witness :
    article_list { exDB with jSubs := [], pSubs := [] } = article_list exDB
      ∧ exArticleApproved ∈ article_list exDB :=
  ⟨(C10_page_views_unfiltered exDB [] []).1,
   ((C10_page_views_unfiltered exDB [] []).2.2.1 exArticleApproved).mpr (by decide)⟩

end NewsApp

namespace NewsApp

/-- Result of the POST /articles/ pipeline: 403, 400, or 201 with the stored
article and the new database state. -/
inductive CreateResult where
  | forbidden (msg : String)
  | invalid (msg : String)
  | created (db : DB) (a : Article)
  deriving DecidableEq, Repr

/-- Python str.strip() with no arguments: remove leading and trailing
whitespace (the serializer calls `value.strip()`). -/
def pyStrip (s : String) : String :=
  String.mk (((s.data.dropWhile Char.isWhitespace).reverse.dropWhile
    Char.isWhitespace).reverse)

/-- Python len() of a string (character count). -/
def pyLen (s : String) : Nat := s.data.length

/-- Field-level title checks generated by the ModelSerializer from the
Article model (CharField: required, blank disallowed, max_length 255); these
run before the custom validate_title hook. -/
def titleFieldOk (v : String) : Bool :=
  v != "" && pyLen v ≤ 255

/-- Field-level content checks (TextField: required, blank disallowed). -/
def contentFieldOk (v : String) : Bool :=
  v != ""

/-- ArticleCreateSerializer.validate_title (news/api/serializers.py 114-122):
reject empty or whitespace-only titles and stripped titles longer than 255
characters; return the stripped title. -/
def validate_title (v : String) : Except String String :=
  if pyStrip v = "" then Except.error "Title cannot be empty."
  else if pyLen (pyStrip v) > 255 then Except.error "Title cannot exceed 255 characters."
  else Except.ok (pyStrip v)

/-- ArticleCreateSerializer.validate_content (news/api/serializers.py
124-128): reject empty or whitespace-only content; return it stripped. -/
def validate_content (v : String) : Except String String :=
  if pyStrip v = "" then Except.error "Content cannot be empty."
  else Except.ok (pyStrip v)

/-- The article row inserted by `serializer.save(journalist=..., publisher=...,
status="pending")` for a caller with journalist profile `j`. -/
def newPendingArticle (db : DB) (j : Journalist) (t c : String) : Article :=
  { id := db.nextId, title := t, content := c, journalistId := j.id,
    publisherId := j.publisherId, status := ReviewStatus.pending, createdAt := db.now }

/-- INSERT of a new article row, consuming one auto-increment id. -/
def insertArticle (db : DB) (a : Article) : DB :=
  { db with articles := db.articles ++ [a], nextId := db.nextId + 1 }

/-- ArticleViewSet.create (news/api/views.py 90-117) with
ArticleCreateSerializer: 403 when the caller has no journalist profile;
otherwise run the field checks and the validate_ hooks, and on success insert
a pending article whose journalist and publisher come from the caller
profile.  `reqStatus` models a `status` field supplied in the request body:
the serializer declares only `title` and `content`, so it is never read. -/
def articleCreate (db : DB) (u : User) (title content : String)
    (reqStatus : Option ReviewStatus) : CreateResult :=
  match db.journalists.find? fun j => j.userId == u.id with
  | none => CreateResult.forbidden "Only journalists can create articles"
  | some j =>
    if ¬ titleFieldOk title then CreateResult.invalid "title field invalid"
    else if ¬ contentFieldOk content then CreateResult.invalid "content field invalid"
    else
      match validate_title title with
      | Except.error e => CreateResult.invalid e
      | Except.ok t =>
        match validate_content content with
        | Except.error e => CreateResult.invalid e
        | Except.ok c =>
          CreateResult.created (insertArticle db (newPendingArticle db j t c))
            (newPendingArticle db j t c)

theorem length_dropWhile_le_len (p : α → Bool) (l : List α) :
    (l.dropWhile p).length ≤ l.length := by
  induction l with
  | nil => simp
  | cons x xs ih =>
    rw [List.dropWhile_cons]
    by_cases h : p x
    · simp only [h, if_true]
      exact le_trans ih (Nat.le_succ _)
    · simp [h]

theorem pyLen_pyStrip_le (s : String) : pyLen (pyStrip s) ≤ pyLen s := by
  unfold pyStrip pyLen
  simp only [String.length_mk]
  calc ((s.data.dropWhile Char.isWhitespace).reverse.dropWhile Char.isWhitespace).reverse.length
      = ((s.data.dropWhile Char.isWhitespace).reverse.dropWhile Char.isWhitespace).length := by
        rw [List.length_reverse]
    _ ≤ (s.data.dropWhile Char.isWhitespace).reverse.length := length_dropWhile_le_len _ _
    _ = (s.data.dropWhile Char.isWhitespace).length := by rw [List.length_reverse]
    _ ≤ s.data.length := length_dropWhile_le_len _ _

theorem pyStrip_ne_empty_imp (s : String) (h : pyStrip s ≠ "") : s ≠ "" := by
  intro he
  exact h (by rw [he]; decide)

/-- C7: POST /articles/ fails with a permission error when the caller has no
journalist profile; with a profile, blank-after-strip title or content or a
stripped title longer than 255 characters gives a validation error and
nothing is created; the supplied status field never changes the outcome; and
on success the created article takes journalist and publisher from the
caller profile and has status pending. -/
theorem C7_article_create (db : DB) (u : User) (title content : String)
    (rs rs2 : Option ReviewStatus) :
    (db.journalists.find? (fun j => j.userId == u.id) = none →
      articleCreate db u title content rs
        = CreateResult.forbidden "Only journalists can create articles")
    ∧ (articleCreate db u title content rs = articleCreate db u title content rs2)
    ∧ (∀ j, db.journalists.find? (fun j => j.userId == u.id) = some j →
        (pyStrip title = "" ∨ pyStrip content = "" ∨ 255 < pyLen (pyStrip title)) →
        ∃ e, articleCreate db u title content rs = CreateResult.invalid e)
    ∧ (∀ j, db.journalists.find? (fun j => j.userId == u.id) = some j →
        pyStrip title ≠ "" → pyLen title ≤ 255 → pyStrip content ≠ "" →
        articleCreate db u title content rs
          = CreateResult.created
              (insertArticle db (newPendingArticle db j (pyStrip title) (pyStrip content)))
              (newPendingArticle db j (pyStrip title) (pyStrip content))) := by
  refine ⟨?_, rfl, ?_, ?_⟩
  · intro hfind
    unfold articleCreate
    rw [hfind]
  · intro j hfind hbad
    unfold articleCreate
    rw [hfind]
    dsimp only
    by_cases h1 : titleFieldOk title
    · rw [if_neg (by simp [h1])]
      by_cases h2 : contentFieldOk content
      · rw [if_neg (by simp [h2])]
        unfold validate_title
        by_cases h3 : pyStrip title = ""
        · rw [if_pos h3]
          exact ⟨_, rfl⟩
        · rw [if_neg h3]
          by_cases h4 : pyLen (pyStrip title) > 255
          · rw [if_pos h4]
            exact ⟨_, rfl⟩
          · rw [if_neg h4]
            unfold validate_content
            by_cases h5 : pyStrip content = ""
            · rw [if_pos h5]
              exact ⟨_, rfl⟩
            · exfalso
              rcases hbad with hb | hb | hb
              · exact h3 hb
              · exact h5 hb
              · exact h4 hb
      · rw [if_pos h2]
        exact ⟨_, rfl⟩
    · rw [if_pos h1]
      exact ⟨_, rfl⟩
  · intro j hfind ht hlen hc
    have htlen : pyLen (pyStrip title) ≤ 255 :=
      le_trans (pyLen_pyStrip_le title) hlen
    unfold articleCreate
    rw [hfind]
    dsimp only
    rw [if_neg (by simp [titleFieldOk, pyStrip_ne_empty_imp title ht, hlen])]
    rw [if_neg (by simp [contentFieldOk, pyStrip_ne_empty_imp content hc])]
    unfold validate_title validate_content
    rw [if_neg ht, if_neg (by omega), if_neg hc]

/-- C7 witness: journalist bob creating a valid article in the concrete state
yields the pending article owned by his journalist profile and its publisher,
even though the request supplied status approved. -/
theorem C7_article_create_witness :
    articleCreate exDB exBob "Hello" " Body " (some ReviewStatus.approved)
      = CreateResult.created
          (insertArticle exDB (newPendingArticle exDB { id := 1, userId := 2, publisherId := 1 } "Hello" "Body"))
          (newPendingArticle exDB { id := 1, userId := 2, publisherId := 1 } "Hello" "Body") := by
  have h := (C7_article_create exDB exBob "Hello" " Body "
    (some ReviewStatus.approved) none).2.2.2
    { id := 1, userId := 2, publisherId := 1 } (by decide) (by decide) (by decide) (by decide)
  rw [h]
  have hs : pyStrip " Body " = "Body" := by decide
  have hs2 : pyStrip "Hello" = "Hello" := by decide
  rw [hs, hs2]

end NewsApp

namespace NewsApp

/-- The publisher id of the caller editor profile
(`request.user.editor_profile.publisher`), when an Editor row exists. -/
def editorPublisher (db : DB) (u : User) : Option Nat :=
  (db.editors.find? fun e => e.userId == u.id).map (·.publisherId)

/-- approve_article (news/views.py 269-289): look up the article by pk; when
the caller has role editor and the caller Editor profile belongs to the
article publisher, set the status to approved and save; otherwise leave the
database unchanged.  The view never inspects the current status. -/
def approve_article (db : DB) (u : User) (pk : Nat) : DB :=
  match db.articles.find? fun a => a.id == pk with
  | none => db
  | some a =>
    if u.role = Role.editor ∧ editorPublisher db u = some a.publisherId then
      { db with articles :=
                  updateWhere (fun t => t.id == pk)
                    (fun t => { t with status := ReviewStatus.approved }) db.articles }
    else db

/-- reject_article (news/views.py 292-308): same guard as approve_article,
setting the status to rejected. -/
def reject_article (db : DB) (u : User) (pk : Nat) : DB :=
  match db.articles.find? fun a => a.id == pk with
  | none => db
  | some a =>
    if u.role = Role.editor ∧ editorPublisher db u = some a.publisherId then
      { db with articles :=
                  updateWhere (fun t => t.id == pk)
                    (fun t => { t with status := ReviewStatus.rejected }) db.articles }
    else db

/-- C4 counterexample: in the concrete state article 3 is rejected, editor
carol belongs to its publisher, and the guarded approve operation still
changes its status from rejected to approved — refuting the claim that
approved and rejected are terminal for the guarded transitions. -/
theorem C4_terminal_counterexample :
    exArticleRejected ∈ exDB.articles
    ∧ exArticleRejected.status = ReviewStatus.rejected
    ∧ exCarol.role = Role.editor
    ∧ editorPublisher exDB exCarol = some exArticleRejected.publisherId
    ∧ (∀ t ∈ (approve_article exDB exCarol 3).articles,
        t.id = 3 → t.status = ReviewStatus.approved) := by
  decide

/-- C4 (amended): every article created through the API starts pending; the
approve and reject views change nothing unless the caller has role editor and
an Editor profile attached to the article publisher; when the guard holds
they set the status of the target article to approved resp. rejected
regardless of its current status (other rows untouched) — so pending →
approved and pending → rejected are editor-guarded, but approved and rejected
are not terminal: the same guarded operations also re-approve a rejected
article or reject an approved one. -/
theorem C4_article_review_amended (db : DB) (u : User) (pk : Nat)
    (title content : String) (rs : Option ReviewStatus) :
    (∀ db2 a, articleCreate db u title content rs = CreateResult.created db2 a →
      a.status = ReviewStatus.pending)
    ∧ (db.articles.find? (fun t => t.id == pk) = none →
        approve_article db u pk = db ∧ reject_article db u pk = db)
    ∧ (∀ a, db.articles.find? (fun t => t.id == pk) = some a →
        ¬(u.role = Role.editor ∧ editorPublisher db u = some a.publisherId) →
        approve_article db u pk = db ∧ reject_article db u pk = db)
    ∧ (∀ a, db.articles.find? (fun t => t.id == pk) = some a →
        u.role = Role.editor → editorPublisher db u = some a.publisherId →
        (∀ t ∈ (approve_article db u pk).articles, t.id = pk → t.status = ReviewStatus.approved)
        ∧ (∀ t ∈ (reject_article db u pk).articles, t.id = pk → t.status = ReviewStatus.rejected)
        ∧ (∀ t ∈ db.articles, t.id ≠ pk → t ∈ (approve_article db u pk).articles)
        ∧ (∀ t ∈ db.articles, t.id ≠ pk → t ∈ (reject_article db u pk).articles)
        ∧ (approve_article db u pk).articles.length = db.articles.length
        ∧ (reject_article db u pk).articles.length = db.articles.length) := by
  refine ⟨?_, ?_, ?_, ?_⟩
  · intro db2 a hc
    unfold articleCreate at hc
    cases hfind : db.journalists.find? fun j => j.userId == u.id with
    | none => rw [hfind] at hc; exact absurd hc (by simp)
    | some j =>
      rw [hfind] at hc
      dsimp only at hc
      by_cases h1 : titleFieldOk title
      · rw [if_neg (by simp [h1])] at hc
        by_cases h2 : contentFieldOk content
        · rw [if_neg (by simp [h2])] at hc
          unfold validate_title at hc
          by_cases h3 : pyStrip title = ""
          · rw [if_pos h3] at hc
            exact absurd hc (by simp)
          · rw [if_neg h3] at hc
            by_cases h4 : pyLen (pyStrip title) > 255
            · rw [if_pos h4] at hc
              exact absurd hc (by simp)
            · rw [if_neg h4] at hc
              unfold validate_content at hc
              by_cases h5 : pyStrip content = ""
              · rw [if_pos h5] at hc
                exact absurd hc (by simp)
              · rw [if_neg h5] at hc
                dsimp only at hc
                cases hc
                rfl
        · rw [if_pos h2] at hc
          exact absurd hc (by simp)
      · rw [if_pos h1] at hc
        exact absurd hc (by simp)
  · intro hfind
    constructor
    · unfold approve_article
      rw [hfind]
    · unfold reject_article
      rw [hfind]
  · intro a hfind hguard
    constructor
    · unfold approve_article
      rw [hfind]
      dsimp only
      rw [if_neg hguard]
    · unfold reject_article
      rw [hfind]
      dsimp only
      rw [if_neg hguard]
  · intro a hfind hrole hpub
    have happrove : (approve_article db u pk).articles =
        updateWhere (fun t => t.id == pk)
          (fun t => { t with status := ReviewStatus.approved }) db.articles := by
      unfold approve_article
      rw [hfind]
      dsimp only
      rw [if_pos ⟨hrole, hpub⟩]
    have hreject : (reject_article db u pk).articles =
        updateWhere (fun t => t.id == pk)
          (fun t => { t with status := ReviewStatus.rejected }) db.articles := by
      unfold reject_article
      rw [hfind]
      dsimp only
      rw [if_pos ⟨hrole, hpub⟩]
    refine ⟨?_, ?_, ?_, ?_, ?_, ?_⟩
    · intro t ht hid
      rw [happrove] at ht
      rcases mem_updateWhere.mp ht with ⟨x, hx, hxt⟩
      by_cases hpx : (x.id == pk) = true
      · rw [if_pos hpx] at hxt
        rw [hxt]
      · rw [if_neg hpx] at hxt
        exact absurd (hxt ▸ (by simp [hid]) : (x.id == pk) = true) hpx
    · intro t ht hid
      rw [hreject] at ht
      rcases mem_updateWhere.mp ht with ⟨x, hx, hxt⟩
      by_cases hpx : (x.id == pk) = true
      · rw [if_pos hpx] at hxt
        rw [hxt]
      · rw [if_neg hpx] at hxt
        exact absurd (hxt ▸ (by simp [hid]) : (x.id == pk) = true) hpx
    · intro t ht hid
      rw [happrove]
      unfold updateWhere
      have hni : (fun x => if (x.id == pk) = true
          then { x with status := ReviewStatus.approved } else x) t = t := by
        dsimp only
        rw [if_neg (by simp [hid])]
      exact hni ▸ List.mem_map_of_mem _ ht
    · intro t ht hid
      rw [hreject]
      unfold updateWhere
      have hni : (fun x => if (x.id == pk) = true
          then { x with status := ReviewStatus.rejected } else x) t = t := by
        dsimp only
        rw [if_neg (by simp [hid])]
      exact hni ▸ List.mem_map_of_mem _ ht
    · rw [happrove]
      exact length_updateWhere _ _ _
    · rw [hreject]
      exact length_updateWhere _ _ _

/-- C4 witness: editor carol approving pending article 2 in the concrete
state makes every row with id 2 approved. -/
theorem C4_article_review_amended_witness :
    ∀ t ∈ (approve_article exDB exCarol 2).articles, t.id = 2 → t.status = ReviewStatus.approved :=
  ((C4_article_review_amended exDB exCarol 2 "t" "c" none).2.2.2
    exArticlePending (by decide) (by decide) (by decide)).1

end NewsApp

namespace NewsApp

/-- Stand-in for `hashlib.sha1(...).hexdigest()` (news/utils.py 27,
news/views.py 203).  The hash itself is an external library call; only the
fact that the stored column is the image of the plaintext under this fixed
function (and differs from the plaintext) matters to the claims, so it is
modelled as a concrete prefixing injection. -/
def sha1Hex (s : String) : String := "sha1:" ++ s

/-- Stand-in for django.contrib.auth.hashers.make_password
(news/views.py 224). -/
def makePassword (s : String) : String := "pbkdf2:" ++ s

/-- generate_reset_url (news/utils.py 13-31): insert a ResetToken row holding
the sha1 hash of the fresh plaintext token with expiry five minutes (300
seconds) from now, and return the reset URL embedding the plaintext token.
The plaintext `tok` models `secrets.token_urlsafe(16)` and is a parameter
because it is drawn at random. -/
def generate_reset_url (db : DB) (uid : Nat) (tok : String) : DB × String :=
  ({ db with resetTokens := db.resetTokens ++
      [{ userId := uid, token := sha1Hex tok, expiryDate := db.now + 5 * 60, used := false }] },
   "http://127.0.0.1:8000" ++ "/reset_password/" ++ tok ++ "/")

/-- Outcome of a reset attempt as surfaced to the user. -/
inductive ResetOutcome where
  | invalidToken
  | expired
  | success
  deriving DecidableEq, Repr

/-- reset_password (news/views.py 201-234), POST branch with a valid form:
look up an unused row whose stored token equals the hash of the presented
token (error message and no mutation when none exists), reject if the expiry
has passed at use time, otherwise set the user password and mark the token
used. -/
def reset_password (db : DB) (tok : String) (newPassword : String) :
    ResetOutcome × DB :=
  match db.resetTokens.find? fun r => r.token == sha1Hex tok && r.used == false with
  | none => (ResetOutcome.invalidToken, db)
  | some r =>
    if r.expiryDate < db.now then (ResetOutcome.expired, db)
    else
      (ResetOutcome.success,
        { db with
            users := updateWhere (fun x => x.id == r.userId)
              (fun x => { x with password := makePassword newPassword }) db.users
            resetTokens := updateWhere (fun t => t.token == sha1Hex tok)
              (fun t => { t with used := true }) db.resetTokens })

theorem sha1Hex_ne (s : String) : sha1Hex s ≠ s := by
  intro h
  have hlen : (sha1Hex s).length = s.length := by rw [h]
  rw [sha1Hex, String.length_append] at hlen
  have h5 : ("sha1:" : String).length = 5 := by decide
  rw [h5] at hlen
  omega

theorem reset_password_none (db : DB) (tok pw : String)
    (h : (db.resetTokens.find? fun r => r.token == sha1Hex tok && r.used == false) = none) :
    reset_password db tok pw = (ResetOutcome.invalidToken, db) := by
  unfold reset_password
  rw [h]

/-- C8: issuing a reset token stores only the hash (never the plaintext) with
expiry 5 minutes after issuance and the used flag clear; under the unique
constraint on the stored token column, a reset attempt succeeds exactly when
an unused row matching the hashed token exists whose expiry has not passed at
use time; a successful reset marks the token used, so a second attempt with
the same token fails and changes nothing — each token resets a password at
most once. -/
theorem C8_reset_tokens (db : DB) (uid : Nat) (tok newPw newPw2 : String) :
    ((generate_reset_url db uid tok).1.resetTokens
        = db.resetTokens ++
          [{ userId := uid, token := sha1Hex tok, expiryDate := db.now + 5 * 60, used := false }]
      ∧ sha1Hex tok ≠ tok)
    ∧ ((db.resetTokens.map (·.token)).Nodup →
        ((reset_password db tok newPw).1 = ResetOutcome.success ↔
          ∃ r ∈ db.resetTokens, r.token = sha1Hex tok ∧ r.used = false
            ∧ ¬(r.expiryDate < db.now)))
    ∧ ((reset_password db tok newPw).1 ≠ ResetOutcome.success →
        (reset_password db tok newPw).2 = db)
    ∧ ((reset_password db tok newPw).1 = ResetOutcome.success →
        reset_password (reset_password db tok newPw).2 tok newPw2
          = (ResetOutcome.invalidToken, (reset_password db tok newPw).2)) := by
  refine ⟨⟨rfl, sha1Hex_ne tok⟩, ?_, ?_, ?_⟩
  · intro hnd
    unfold reset_password
    cases hfind : db.resetTokens.find? fun r => r.token == sha1Hex tok && r.used == false with
    | none =>
      dsimp only
      constructor
      · intro h
        exact absurd h (by simp)
      · rintro ⟨r, hr, ht, hu, hexp⟩
        exact absurd (by simp [ht, hu]) (List.find?_eq_none.mp hfind r hr)
    | some r =>
      dsimp only
      have hmem := List.mem_of_find?_eq_some hfind
      have hpr := List.find?_some hfind
      simp only [Bool.and_eq_true, beq_iff_eq] at hpr
      by_cases hexp : r.expiryDate < db.now
      · rw [if_pos hexp]
        constructor
        · intro h
          exact absurd h (by simp)
        · rintro ⟨r2, hr2, ht2, hu2, hexp2⟩
          have heq : r2 = r :=
            eq_of_nodup_key (fun t : ResetTok => t.token) hnd hr2 hmem
              (by dsimp only; rw [ht2, hpr.1])
          exact absurd hexp (heq ▸ hexp2)
      · rw [if_neg hexp]
        exact ⟨fun _ => ⟨r, hmem, hpr.1, hpr.2, hexp⟩, fun _ => rfl⟩
  · intro hne
    unfold reset_password at hne ⊢
    cases hfind : db.resetTokens.find? fun r => r.token == sha1Hex tok && r.used == false with
    | none => rfl
    | some r =>
      rw [hfind] at hne
      dsimp only at hne ⊢
      by_cases hexp : r.expiryDate < db.now
      · rw [if_pos hexp]
      · rw [if_neg hexp] at hne
        exact absurd rfl hne
  · intro hsucc
    unfold reset_password at hsucc
    cases hfind : db.resetTokens.find? fun r => r.token == sha1Hex tok && r.used == false with
    | none =>
      rw [hfind] at hsucc
      exact absurd hsucc (by simp)
    | some r =>
      rw [hfind] at hsucc
      dsimp only at hsucc
      by_cases hexp : r.expiryDate < db.now
      · rw [if_pos hexp] at hsucc
        exact absurd hsucc (by simp)
      · rw [if_neg hexp] at hsucc
        have hdb2 : (reset_password db tok newPw).2.resetTokens
            = updateWhere (fun t => t.token == sha1Hex tok)
                (fun t => { t with used := true }) db.resetTokens := by
          unfold reset_password
          rw [hfind]
          dsimp only
          rw [if_neg hexp]
        have hnone : ((reset_password db tok newPw).2.resetTokens.find? fun r =>
            r.token == sha1Hex tok && r.used == false) = none := by
          rw [hdb2, List.find?_eq_none]
          intro x hx hpx
          rcases mem_updateWhere.mp hx with ⟨y, hy, hyx⟩
          by_cases hpy : (y.token == sha1Hex tok) = true
          · rw [if_pos hpy] at hyx
            rw [hyx] at hpx
            simp at hpx
          · rw [if_neg hpy] at hyx
            rw [hyx] at hpx
            simp only [Bool.and_eq_true, beq_iff_eq] at hpx
            exact hpy (by simp [hpx.1])
        exact reset_password_none _ tok newPw2 hnone

/-- C8 witness: issuing a token for alice in the concrete state and using it
once succeeds; the stored row holds the hash, and the second use fails. -/
theorem C8_reset_tokens_witness :
    ((generate_reset_url exDB 1 "tok").1.resetTokens
        = [{ userId := 1, token := sha1Hex "tok", expiryDate := exDB.now + 5 * 60, used := false }])
    ∧ sha1Hex "tok" ≠ "tok" :=
  ⟨by rw [(C8_reset_tokens exDB 1 "tok" "n" "n2").1.1]; decide,
   (C8_reset_tokens exDB 1 "tok" "n" "n2").1.2⟩

end NewsApp

namespace NewsApp

/-- Email address of the user with the given id (FK-resolved
`subscription.reader.email`; "" when the user is absent, which the foreign
key rules out in real states). -/
def emailOf (db : DB) (uid : Nat) : String :=
  match db.users.find? fun x => x.id == uid with
  | some v => v.email
  | none => ""

/-- The subscriber loop of send_article_subscriber_notifications
(news/utils.py 64-86): walk the concatenated subscription lists, skip reader
emails already collected in the seen-set, and send one email per new
address.  Returns the list of addresses an email was sent to, in order. -/
def notifyLoop (db : DB) (rids : List Nat) (seen : List String) : List String :=
  match rids with
  | [] => []
  | rid :: rest =>
    let em := emailOf db rid
    if em ∈ seen then notifyLoop db rest seen
    else em :: notifyLoop db rest (em :: seen)

/-- send_article_subscriber_notifications (news/utils.py 48-89): return
immediately (no emails) unless the article status is approved; otherwise send
one email per distinct address over the active journalist subscribers of the
article journalist followed by the active publisher subscribers of the
article publisher. -/
def send_article_subscriber_notifications (db : DB) (a : Article) : List String :=
  if a.status ≠ ReviewStatus.approved then []
  else
    notifyLoop db
      (((db.jSubs.filter fun s => s.journalistId == a.journalistId && s.isActive).map (·.readerId))
        ++ ((db.pSubs.filter fun s => s.publisherId == a.publisherId && s.isActive).map (·.readerId)))
      []

/-- send_article_approval_notification (news/utils.py 34-45): the single
status email to the owning journalist user. -/
def send_article_approval_notification (db : DB) (a : Article) : List String :=
  match db.journalists.find? fun j => j.id == a.journalistId with
  | none => []
  | some j => [emailOf db j.userId]

theorem mem_notifyLoop (db : DB) (rids : List Nat) (seen : List String) (e : String) :
    e ∈ notifyLoop db rids seen ↔ e ∉ seen ∧ ∃ rid ∈ rids, emailOf db rid = e := by
  induction rids generalizing seen with
  | nil => simp [notifyLoop]
  | cons r rest ih =>
    unfold notifyLoop
    dsimp only
    by_cases h : emailOf db r ∈ seen
    · rw [if_pos h, ih]
      constructor
      · rintro ⟨hn, rid, hr, he⟩
        exact ⟨hn, rid, List.mem_cons_of_mem r hr, he⟩
      · rintro ⟨hn, rid, hr, he⟩
        rcases List.mem_cons.mp hr with rfl | hr2
        · exact absurd (he ▸ h) hn
        · exact ⟨hn, rid, hr2, he⟩
    · rw [if_neg h]
      rw [List.mem_cons, ih]
      constructor
      · rintro (rfl | ⟨hn, rid, hr, he⟩)
        · exact ⟨h, r, List.mem_cons_self r rest, rfl⟩
        · exact ⟨fun hs => hn (List.mem_cons_of_mem _ hs), rid, List.mem_cons_of_mem r hr, he⟩
      · rintro ⟨hn, rid, hr, he⟩
        rcases List.mem_cons.mp hr with rfl | hr2
        · exact Or.inl he.symm
        · by_cases he2 : e = emailOf db r
          · exact Or.inl he2
          · refine Or.inr ⟨?_, rid, hr2, he⟩
            intro hmem
            rcases List.mem_cons.mp hmem with h1 | h2
            · exact he2 h1
            · exact hn h2

theorem nodup_notifyLoop (db : DB) (rids : List Nat) (seen : List String) :
    (notifyLoop db rids seen).Nodup := by
  induction rids generalizing seen with
  | nil => simp [notifyLoop]
  | cons r rest ih =>
    unfold notifyLoop
    dsimp only
    by_cases h : emailOf db r ∈ seen
    · rw [if_pos h]
      exact ih _
    · rw [if_neg h]
      rw [List.nodup_cons]
      refine ⟨?_, ih _⟩
      intro hmem
      exact ((mem_notifyLoop db rest _ _).mp hmem).1 (List.mem_cons_self _ _)

/-- C9: the fan-out is empty for a non-approved article; for an approved
article the set of addresses notified is exactly the reader emails of the
active journalist subscriptions to the article journalist together with the
active publisher subscriptions to the article publisher, each distinct
address receiving at most one email; and the status email goes exactly to the
owning journalist user. -/
theorem C9_subscriber_fanout (db : DB) (a : Article) :
    (a.status ≠ ReviewStatus.approved → send_article_subscriber_notifications db a = [])
    ∧ (a.status = ReviewStatus.approved →
        ∀ e, e ∈ send_article_subscriber_notifications db a ↔
          (∃ s ∈ db.jSubs, s.isActive = true ∧ s.journalistId = a.journalistId
              ∧ emailOf db s.readerId = e)
          ∨ (∃ s ∈ db.pSubs, s.isActive = true ∧ s.publisherId = a.publisherId
              ∧ emailOf db s.readerId = e))
    ∧ (send_article_subscriber_notifications db a).Nodup
    ∧ (∀ j, db.journalists.find? (fun x => x.id == a.journalistId) = some j →
        send_article_approval_notification db a = [emailOf db j.userId]) := by
  refine ⟨?_, ?_, ?_, ?_⟩
  · intro h
    unfold send_article_subscriber_notifications
    rw [if_pos h]
  · intro h e
    unfold send_article_subscriber_notifications
    rw [if_neg (by simp [h])]
    rw [mem_notifyLoop]
    simp only [List.not_mem_nil, not_false_iff, true_and, List.mem_append, List.mem_map,
      List.mem_filter, Bool.and_eq_true, beq_iff_eq]
    constructor
    · rintro ⟨rid, (⟨s, ⟨hs, hj, ha⟩, hrid⟩ | ⟨s, ⟨hs, hpc, ha⟩, hrid⟩), he⟩
      · exact Or.inl ⟨s, hs, ha, hj, by rw [hrid, he]⟩
      · exact Or.inr ⟨s, hs, ha, hpc, by rw [hrid, he]⟩
    · rintro (⟨s, hs, ha, hj, he⟩ | ⟨s, hs, hpc, ha, he⟩)
      · exact ⟨s.readerId, Or.inl ⟨s, ⟨hs, hj, ha⟩, rfl⟩, he⟩
      · exact ⟨s.readerId, Or.inr ⟨s, ⟨hs, ha, hpc⟩, rfl⟩, he⟩
  · unfold send_article_subscriber_notifications
    by_cases h : a.status ≠ ReviewStatus.approved
    · rw [if_pos h]
      exact List.nodup_nil
    · rw [if_neg h]
      exact nodup_notifyLoop _ _ _
  · intro j hfind
    unfold send_article_approval_notification
    rw [hfind]

/-- C9 witness: for the approved article in the concrete state the fan-out
reaches exactly the reader alice, and the status email goes to bob. -/
theorem C9_subscriber_fanout_witness :
    ("alice@x" ∈ send_article_subscriber_notifications exDB exArticleApproved)
    ∧ send_article_approval_notification exDB exArticleApproved = [emailOf exDB 2] :=
  ⟨((C9_subscriber_fanout exDB exArticleApproved).2.1 rfl "alice@x").mpr
    (Or.inl ⟨{ readerId := 1, journalistId := 1, isActive := true }, by decide, rfl, by decide, by decide⟩),
   (C9_subscriber_fanout exDB exArticleApproved).2.2.2
     { id := 1, userId := 2, publisherId := 1 } (by decide)⟩

end NewsApp

namespace NewsApp

theorem find?_updateWhere_same (p : α → Bool) (f : α → α)
    (hpf : ∀ x, p x = true → p (f x) = true) (l : List α) :
    (updateWhere p f l).find? p = (l.find? p).map f := by
  induction l with
  | nil => rfl
  | cons x xs ih =>
    rw [updateWhere_cons]
    by_cases h : p x
    · rw [if_pos h, List.find?_cons_of_pos _ (hpf x h), List.find?_cons_of_pos _ h]
      rfl
    · rw [if_neg h, List.find?_cons_of_neg _ h, List.find?_cons_of_neg _ h, ih]

theorem userSave_fields (db : DB) (u : User) :
    (userSave db u).editors = db.editors
    ∧ (userSave db u).journalists = db.journalists
    ∧ (userSave db u).publishers = db.publishers
    ∧ (userSave db u).applications = db.applications
    ∧ (userSave db u).articles = db.articles
    ∧ (userSave db u).nextId = db.nextId
    ∧ (userSave db u).now = db.now := by
  unfold userSave deactivateSubs
  cases db.users.find? fun x => x.id == u.id with
  | none => exact ⟨rfl, rfl, rfl, rfl, rfl, rfl, rfl⟩
  | some old =>
    dsimp only
    split
    · exact ⟨rfl, rfl, rfl, rfl, rfl, rfl, rfl⟩
    · exact ⟨rfl, rfl, rfl, rfl, rfl, rfl, rfl⟩

theorem userSave_users_of_found (db : DB) (u : User) (old : User)
    (h : db.users.find? (fun x => x.id == u.id) = some old) :
    (userSave db u).users
      = updateWhere (fun x => x.id == u.id) (fun _ => u) db.users := by
  unfold userSave deactivateSubs
  rw [h]
  dsimp only
  split
  · rfl
  · rfl

theorem userSave_jSubs_keys (db : DB) (u : User) :
    (userSave db u).jSubs.map (fun s => (s.readerId, s.journalistId))
      = db.jSubs.map (fun s => (s.readerId, s.journalistId)) := by
  unfold userSave deactivateSubs
  cases db.users.find? fun x => x.id == u.id with
  | none => rfl
  | some old =>
    dsimp only
    split
    · dsimp only
      exact map_updateWhere (fun s : JSub => s.readerId == u.id && s.isActive)
        (fun s => { s with isActive := false })
        (fun s => (s.readerId, s.journalistId)) (fun _ => rfl) _
    · rfl

theorem userSave_pSubs_keys (db : DB) (u : User) :
    (userSave db u).pSubs.map (fun s => (s.readerId, s.publisherId))
      = db.pSubs.map (fun s => (s.readerId, s.publisherId)) := by
  unfold userSave deactivateSubs
  cases db.users.find? fun x => x.id == u.id with
  | none => rfl
  | some old =>
    dsimp only
    split
    · dsimp only
      exact map_updateWhere (fun s : PSub => s.readerId == u.id && s.isActive)
        (fun s => { s with isActive := false })
        (fun s => (s.readerId, s.publisherId)) (fun _ => rfl) _
    · rfl

theorem deactivateSubs_jSubs_inactive (db : DB) (uid : Nat) :
    ∀ s ∈ (deactivateSubs db uid).jSubs, s.readerId = uid → s.isActive = false := by
  intro s hs hr
  unfold deactivateSubs at hs
  rcases mem_updateWhere.mp hs with ⟨x, hx, hxt⟩
  by_cases hpx : (x.readerId == uid && x.isActive) = true
  · rw [if_pos hpx] at hxt
    rw [hxt]
  · rw [if_neg hpx] at hxt
    subst hxt
    simp only [Bool.and_eq_true, beq_iff_eq, not_and] at hpx
    exact Bool.not_eq_true _ |>.mp (hpx hr)

theorem deactivateSubs_pSubs_inactive (db : DB) (uid : Nat) :
    ∀ s ∈ (deactivateSubs db uid).pSubs, s.readerId = uid → s.isActive = false := by
  intro s hs hr
  unfold deactivateSubs at hs
  rcases mem_updateWhere.mp hs with ⟨x, hx, hxt⟩
  by_cases hpx : (x.readerId == uid && x.isActive) = true
  · rw [if_pos hpx] at hxt
    rw [hxt]
  · rw [if_neg hpx] at hxt
    subst hxt
    simp only [Bool.and_eq_true, beq_iff_eq, not_and] at hpx
    exact Bool.not_eq_true _ |>.mp (hpx hr)

theorem deactivateSubs_jSubs_keys (db : DB) (uid : Nat) :
    (deactivateSubs db uid).jSubs.map (fun s => (s.readerId, s.journalistId))
      = db.jSubs.map (fun s => (s.readerId, s.journalistId)) := by
  unfold deactivateSubs
  dsimp only
  exact map_updateWhere (fun s : JSub => s.readerId == uid && s.isActive)
    (fun s => { s with isActive := false })
    (fun s => (s.readerId, s.journalistId)) (fun _ => rfl) _

theorem deactivateSubs_pSubs_keys (db : DB) (uid : Nat) :
    (deactivateSubs db uid).pSubs.map (fun s => (s.readerId, s.publisherId))
      = db.pSubs.map (fun s => (s.readerId, s.publisherId)) := by
  unfold deactivateSubs
  dsimp only
  exact map_updateWhere (fun s : PSub => s.readerId == uid && s.isActive)
    (fun s => { s with isActive := false })
    (fun s => (s.readerId, s.publisherId)) (fun _ => rfl) _

theorem createRoleProfile_fixed (db : DB) (user : User) (role : Role) (pub : Option Publisher) :
    (createRoleProfile db user role pub).users = db.users
    ∧ (createRoleProfile db user role pub).jSubs = db.jSubs
    ∧ (createRoleProfile db user role pub).pSubs = db.pSubs
    ∧ (createRoleProfile db user role pub).applications = db.applications := by
  unfold createRoleProfile getOrCreateJournalist getOrCreatePublisher
  cases pub <;> split_ifs <;> exact ⟨rfl, rfl, rfl, rfl⟩

theorem getOrCreateEditor_mem (es : List Editor) (uid pid : Nat) :
    ∃ e ∈ getOrCreateEditor es uid pid, e.userId = uid ∧ e.publisherId = pid := by
  unfold getOrCreateEditor
  by_cases h : es.any fun e => e.userId == uid && e.publisherId == pid
  · rw [if_pos h]
    rcases List.any_eq_true.mp h with ⟨e, he, hpe⟩
    simp only [Bool.and_eq_true, beq_iff_eq] at hpe
    exact ⟨e, he, hpe.1, hpe.2⟩
  · rw [if_neg h]
    exact ⟨⟨uid, pid⟩, List.mem_append_right _ (List.mem_singleton.mpr rfl), rfl, rfl⟩

theorem getOrCreateEditor_idem (es : List Editor) (uid pid : Nat)
    (h : ∃ e ∈ es, e.userId = uid ∧ e.publisherId = pid) :
    getOrCreateEditor es uid pid = es := by
  unfold getOrCreateEditor
  rcases h with ⟨e, he, h1, h2⟩
  rw [if_pos (List.any_eq_true.mpr ⟨e, he, by simp [h1, h2]⟩)]

theorem getOrCreateJournalist_mem (js : List Journalist) (nid uid pid : Nat) :
    ∃ j ∈ (getOrCreateJournalist js nid uid pid).1, j.userId = uid ∧ j.publisherId = pid := by
  unfold getOrCreateJournalist
  by_cases h : js.any fun j => j.userId == uid && j.publisherId == pid
  · rw [if_pos h]
    rcases List.any_eq_true.mp h with ⟨j, hj, hpj⟩
    simp only [Bool.and_eq_true, beq_iff_eq] at hpj
    exact ⟨j, hj, hpj.1, hpj.2⟩
  · rw [if_neg h]
    exact ⟨⟨nid, uid, pid⟩, List.mem_append_right _ (List.mem_singleton.mpr rfl), rfl, rfl⟩

theorem getOrCreateJournalist_idem (js : List Journalist) (nid uid pid : Nat)
    (h : ∃ j ∈ js, j.userId = uid ∧ j.publisherId = pid) :
    getOrCreateJournalist js nid uid pid = (js, nid) := by
  unfold getOrCreateJournalist
  rcases h with ⟨j, hj, h1, h2⟩
  rw [if_pos (List.any_eq_true.mpr ⟨j, hj, by simp [h1, h2]⟩)]

theorem getOrCreatePublisher_mem (ps : List Publisher) (nid uid : Nat) (nm : String) :
    ∃ q ∈ (getOrCreatePublisher ps nid uid nm).1, q.userId = uid ∧ q.name = nm := by
  unfold getOrCreatePublisher
  by_cases h : ps.any fun q => q.userId == uid && q.name == nm
  · rw [if_pos h]
    rcases List.any_eq_true.mp h with ⟨q, hq, hpq⟩
    simp only [Bool.and_eq_true, beq_iff_eq] at hpq
    exact ⟨q, hq, hpq.1, hpq.2⟩
  · rw [if_neg h]
    exact ⟨⟨nid, uid, nm⟩, List.mem_append_right _ (List.mem_singleton.mpr rfl), rfl, rfl⟩

theorem getOrCreatePublisher_idem (ps : List Publisher) (nid uid : Nat) (nm : String)
    (h : ∃ q ∈ ps, q.userId = uid ∧ q.name = nm) :
    getOrCreatePublisher ps nid uid nm = (ps, nid) := by
  unfold getOrCreatePublisher
  rcases h with ⟨q, hq, h1, h2⟩
  rw [if_pos (List.any_eq_true.mpr ⟨q, hq, by simp [h1, h2]⟩)]

theorem approve_role_application_eq (db : DB) (appId : Nat) (pub : Option Publisher)
    (app : RoleApp) (user : User)
    (happ : db.applications.find? (fun x => x.id == appId) = some app)
    (huser : db.users.find? (fun x => x.id == app.userId) = some user) :
    approve_role_application db appId pub
      = createRoleProfile
          (deactivateSubs
            (userSave
              { db with applications :=
                          updateWhere (fun x => x.id == appId)
                            (fun x => { x with status := ReviewStatus.approved }) db.applications }
              { user with role := app.appliedRole })
            user.id)
          { user with role := app.appliedRole } app.appliedRole pub := by
  unfold approve_role_application
  rw [happ]
  dsimp only
  rw [huser]

end NewsApp

namespace NewsApp

theorem deactivateSubs_users (db : DB) (uid : Nat) :
    (deactivateSubs db uid).users = db.users := rfl

theorem deactivateSubs_applications (db : DB) (uid : Nat) :
    (deactivateSubs db uid).applications = db.applications := rfl

theorem deactivateSubs_editors (db : DB) (uid : Nat) :
    (deactivateSubs db uid).editors = db.editors := rfl

theorem deactivateSubs_journalists (db : DB) (uid : Nat) :
    (deactivateSubs db uid).journalists = db.journalists := rfl

theorem deactivateSubs_publishers (db : DB) (uid : Nat) :
    (deactivateSubs db uid).publishers = db.publishers := rfl

theorem deactivateSubs_nextId (db : DB) (uid : Nat) :
    (deactivateSubs db uid).nextId = db.nextId := rfl

theorem approve_apps_fact (db : DB) (appId : Nat) (pub : Option Publisher)
    (app : RoleApp) (user : User)
    (happ : db.applications.find? (fun x => x.id == appId) = some app)
    (huser : db.users.find? (fun x => x.id == app.userId) = some user) :
    (approve_role_application db appId pub).applications
      = updateWhere (fun x => x.id == appId)
          (fun x => { x with status := ReviewStatus.approved }) db.applications := by
  rw [approve_role_application_eq db appId pub app user happ huser]
  rw [(createRoleProfile_fixed _ _ _ _).2.2.2, deactivateSubs_applications]
  rw [(userSave_fields _ _).2.2.2.1]

theorem approve_users_fact (db : DB) (appId : Nat) (pub : Option Publisher)
    (app : RoleApp) (user : User)
    (happ : db.applications.find? (fun x => x.id == appId) = some app)
    (huser : db.users.find? (fun x => x.id == app.userId) = some user) :
    (approve_role_application db appId pub).users
      = updateWhere (fun x => x.id == user.id)
          (fun _ => { user with role := app.appliedRole }) db.users := by
  have huid : user.id = app.userId := by
    have h := List.find?_some huser
    simpa using h
  have huser2 : db.users.find? (fun x => x.id == user.id) = some user := by
    rw [huid]; exact huser
  rw [approve_role_application_eq db appId pub app user happ huser]
  rw [(createRoleProfile_fixed _ _ _ _).1, deactivateSubs_users]
  exact userSave_users_of_found _ _ user huser2

theorem approve_subs_facts (db : DB) (appId : Nat) (pub : Option Publisher)
    (app : RoleApp) (user : User)
    (happ : db.applications.find? (fun x => x.id == appId) = some app)
    (huser : db.users.find? (fun x => x.id == app.userId) = some user) :
    (∀ s ∈ (approve_role_application db appId pub).jSubs,
        s.readerId = app.userId → s.isActive = false)
    ∧ (∀ s ∈ (approve_role_application db appId pub).pSubs,
        s.readerId = app.userId → s.isActive = false)
    ∧ (approve_role_application db appId pub).jSubs.map (fun s => (s.readerId, s.journalistId))
        = db.jSubs.map (fun s => (s.readerId, s.journalistId))
    ∧ (approve_role_application db appId pub).pSubs.map (fun s => (s.readerId, s.publisherId))
        = db.pSubs.map (fun s => (s.readerId, s.publisherId)) := by
  have huid : user.id = app.userId := by
    have h := List.find?_some huser
    simpa using h
  rw [approve_role_application_eq db appId pub app user happ huser]
  refine ⟨?_, ?_, ?_, ?_⟩
  · intro s hs hr
    rw [(createRoleProfile_fixed _ _ _ _).2.1] at hs
    exact deactivateSubs_jSubs_inactive _ _ s hs (by rw [huid]; exact hr)
  · intro s hs hr
    rw [(createRoleProfile_fixed _ _ _ _).2.2.1] at hs
    exact deactivateSubs_pSubs_inactive _ _ s hs (by rw [huid]; exact hr)
  · rw [(createRoleProfile_fixed _ _ _ _).2.1, deactivateSubs_jSubs_keys,
      userSave_jSubs_keys]
  · rw [(createRoleProfile_fixed _ _ _ _).2.2.1, deactivateSubs_pSubs_keys,
      userSave_pSubs_keys]

end NewsApp

namespace NewsApp

theorem createRoleProfile_editor_some (db : DB) (user : User) (p : Publisher) :
    createRoleProfile db user Role.editor (some p)
      = { db with editors := getOrCreateEditor db.editors user.id p.id } := by
  unfold createRoleProfile
  rw [if_pos rfl]

theorem createRoleProfile_journalist_some (db : DB) (user : User) (p : Publisher) :
    createRoleProfile db user Role.journalist (some p)
      = { db with
            journalists := (getOrCreateJournalist db.journalists db.nextId user.id p.id).1
            nextId := (getOrCreateJournalist db.journalists db.nextId user.id p.id).2 } := by
  unfold createRoleProfile
  rw [if_neg (by decide), if_pos rfl]

theorem createRoleProfile_publisher_eq (db : DB) (user : User) (pub : Option Publisher) :
    createRoleProfile db user Role.publisher pub
      = { db with
            publishers := (getOrCreatePublisher db.publishers db.nextId user.id
              (user.username ++ " Publishing")).1
            nextId := (getOrCreatePublisher db.publishers db.nextId user.id
              (user.username ++ " Publishing")).2 } := by
  unfold createRoleProfile
  rw [if_neg (by decide), if_neg (by decide), if_pos rfl]

theorem createRoleProfile_none_eq (db : DB) (user : User) (role : Role)
    (h : role = Role.editor ∨ role = Role.journalist) :
    createRoleProfile db user role none = db := by
  rcases h with h | h <;> subst h <;> unfold createRoleProfile
  · rw [if_pos rfl]
  · rw [if_neg (by decide), if_pos rfl]

theorem createRoleProfile_reader_eq (db : DB) (user : User) (pub : Option Publisher) :
    createRoleProfile db user Role.reader pub = db := by
  unfold createRoleProfile
  rw [if_neg (by decide), if_neg (by decide), if_neg (by decide)]

theorem approve_profiles_fact (db : DB) (appId : Nat) (pub : Option Publisher)
    (app : RoleApp) (user : User)
    (happ : db.applications.find? (fun x => x.id == appId) = some app)
    (huser : db.users.find? (fun x => x.id == app.userId) = some user) :
    (∀ p, app.appliedRole = Role.editor → pub = some p →
        (∃ e ∈ (approve_role_application db appId pub).editors,
            e.userId = app.userId ∧ e.publisherId = p.id)
        ∧ (approve_role_application db appId pub).journalists = db.journalists
        ∧ (approve_role_application db appId pub).publishers = db.publishers)
    ∧ (∀ p, app.appliedRole = Role.journalist → pub = some p →
        (∃ jj ∈ (approve_role_application db appId pub).journalists,
            jj.userId = app.userId ∧ jj.publisherId = p.id)
        ∧ (approve_role_application db appId pub).editors = db.editors
        ∧ (approve_role_application db appId pub).publishers = db.publishers)
    ∧ (app.appliedRole = Role.publisher →
        (∃ q ∈ (approve_role_application db appId pub).publishers,
            q.userId = app.userId ∧ q.name = user.username ++ " Publishing")
        ∧ (approve_role_application db appId pub).editors = db.editors
        ∧ (approve_role_application db appId pub).journalists = db.journalists)
    ∧ ((app.appliedRole = Role.editor ∨ app.appliedRole = Role.journalist) → pub = none →
        (approve_role_application db appId pub).editors = db.editors
        ∧ (approve_role_application db appId pub).journalists = db.journalists
        ∧ (approve_role_application db appId pub).publishers = db.publishers) := by
  have huid : user.id = app.userId := by
    have h := List.find?_some huser
    simpa using h
  rw [approve_role_application_eq db appId pub app user happ huser]
  set u2 : User := { user with role := app.appliedRole } with hu2
  set Y : DB := deactivateSubs
    (userSave
      { db with applications :=
                  updateWhere (fun x => x.id == appId)
                    (fun x => { x with status := ReviewStatus.approved }) db.applications }
      u2) user.id with hY
  have hYe : Y.editors = db.editors := by
    rw [hY, deactivateSubs_editors, (userSave_fields _ _).1]
  have hYj : Y.journalists = db.journalists := by
    rw [hY, deactivateSubs_journalists, (userSave_fields _ _).2.1]
  have hYp : Y.publishers = db.publishers := by
    rw [hY, deactivateSubs_publishers, (userSave_fields _ _).2.2.1]
  refine ⟨?_, ?_, ?_, ?_⟩
  · intro p hrole hpub
    subst hpub
    rw [hrole, createRoleProfile_editor_some]
    refine ⟨?_, ?_, ?_⟩
    · show ∃ e ∈ getOrCreateEditor Y.editors u2.id p.id, e.userId = app.userId ∧ e.publisherId = p.id
      obtain ⟨e, he, h1, h2⟩ := getOrCreateEditor_mem Y.editors u2.id p.id
      refine ⟨e, he, ?_, h2⟩
      rw [h1]
      exact huid
    · show Y.journalists = db.journalists
      exact hYj
    · show Y.publishers = db.publishers
      exact hYp
  · intro p hrole hpub
    subst hpub
    rw [hrole, createRoleProfile_journalist_some]
    refine ⟨?_, ?_, ?_⟩
    · show ∃ jj ∈ (getOrCreateJournalist Y.journalists Y.nextId u2.id p.id).1,
        jj.userId = app.userId ∧ jj.publisherId = p.id
      obtain ⟨jj, hjj, h1, h2⟩ := getOrCreateJournalist_mem Y.journalists Y.nextId u2.id p.id
      refine ⟨jj, hjj, ?_, h2⟩
      rw [h1]
      exact huid
    · show Y.editors = db.editors
      exact hYe
    · show Y.publishers = db.publishers
      exact hYp
  · intro hrole
    rw [hrole, createRoleProfile_publisher_eq]
    refine ⟨?_, ?_, ?_⟩
    · show ∃ q ∈ (getOrCreatePublisher Y.publishers Y.nextId u2.id (u2.username ++ " Publishing")).1,
        q.userId = app.userId ∧ q.name = user.username ++ " Publishing"
      obtain ⟨q, hq, h1, h2⟩ :=
        getOrCreatePublisher_mem Y.publishers Y.nextId u2.id (u2.username ++ " Publishing")
      refine ⟨q, hq, ?_, h2⟩
      rw [h1]
      exact huid
    · show Y.editors = db.editors
      exact hYe
    · show Y.journalists = db.journalists
      exact hYj
  · intro hrole hpub
    subst hpub
    rw [createRoleProfile_none_eq _ _ _ hrole]
    exact ⟨hYe, hYj, hYp⟩

end NewsApp

namespace NewsApp

theorem approve_idem_profiles (db : DB) (appId : Nat) (pub : Option Publisher)
    (app : RoleApp) (user : User)
    (happ : db.applications.find? (fun x => x.id == appId) = some app)
    (huser : db.users.find? (fun x => x.id == app.userId) = some user) :
    (approve_role_application (approve_role_application db appId pub) appId pub).editors
        = (approve_role_application db appId pub).editors
    ∧ (approve_role_application (approve_role_application db appId pub) appId pub).journalists
        = (approve_role_application db appId pub).journalists
    ∧ (approve_role_application (approve_role_application db appId pub) appId pub).publishers
        = (approve_role_application db appId pub).publishers := by
  have huid : user.id = app.userId := by
    have h := List.find?_some huser
    simpa using h
  have huser' : db.users.find? (fun x => x.id == user.id) = some user := by
    rw [huid]; exact huser
  obtain ⟨f1, f2, f3, f4⟩ := approve_profiles_fact db appId pub app user happ huser
  have happ2 : (approve_role_application db appId pub).applications.find?
      (fun x => x.id == appId) = some { app with status := ReviewStatus.approved } := by
    rw [approve_apps_fact db appId pub app user happ huser,
      find?_updateWhere_same (fun x : RoleApp => x.id == appId)
        (fun x => { x with status := ReviewStatus.approved }) (fun x hx => hx), happ]
    rfl
  have huser2 : (approve_role_application db appId pub).users.find?
      (fun x => x.id == app.userId) = some { user with role := app.appliedRole } := by
    rw [approve_users_fact db appId pub app user happ huser, ← huid]
    rw [find?_updateWhere_same (fun x : User => x.id == user.id)
      (fun _ => { user with role := app.appliedRole }) (fun x _ => by simp), huser']
    rfl
  have heq : approve_role_application (approve_role_application db appId pub) appId pub
      = createRoleProfile
          (deactivateSubs
            (userSave
              { approve_role_application db appId pub with
                  applications :=
                    updateWhere (fun x => x.id == appId)
                      (fun x => { x with status := ReviewStatus.approved })
                      (approve_role_application db appId pub).applications }
              { user with role := app.appliedRole })
            user.id)
          { user with role := app.appliedRole } app.appliedRole pub :=
    approve_role_application_eq (approve_role_application db appId pub) appId pub
      { app with status := ReviewStatus.approved } { user with role := app.appliedRole }
      happ2 huser2
  rw [heq]
  set u2 : User := { user with role := app.appliedRole } with hu2
  set Y2 : DB := deactivateSubs
    (userSave
      { approve_role_application db appId pub with
          applications :=
            updateWhere (fun x => x.id == appId)
              (fun x => { x with status := ReviewStatus.approved })
              (approve_role_application db appId pub).applications }
      u2) user.id with hY2
  have hY2e : Y2.editors = (approve_role_application db appId pub).editors := by
    rw [hY2, deactivateSubs_editors, (userSave_fields _ _).1]
  have hY2j : Y2.journalists = (approve_role_application db appId pub).journalists := by
    rw [hY2, deactivateSubs_journalists, (userSave_fields _ _).2.1]
  have hY2p : Y2.publishers = (approve_role_application db appId pub).publishers := by
    rw [hY2, deactivateSubs_publishers, (userSave_fields _ _).2.2.1]
  cases hrole : app.appliedRole with
  | reader =>
    rw [createRoleProfile_reader_eq]
    exact ⟨hY2e, hY2j, hY2p⟩
  | editor =>
    cases pub with
    | none =>
      rw [createRoleProfile_none_eq _ _ _ (Or.inl rfl)]
      exact ⟨hY2e, hY2j, hY2p⟩
    | some p =>
      rw [createRoleProfile_editor_some]
      obtain ⟨hex, hj, hp⟩ := f1 p hrole rfl
      refine ⟨?_, ?_, ?_⟩
      · show getOrCreateEditor Y2.editors u2.id p.id
            = (approve_role_application db appId (some p)).editors
        rw [hY2e]
        apply getOrCreateEditor_idem
        obtain ⟨e, he, h1, h2⟩ := hex
        exact ⟨e, he, h1.trans huid.symm, h2⟩
      · show Y2.journalists = (approve_role_application db appId (some p)).journalists
        exact hY2j
      · show Y2.publishers = (approve_role_application db appId (some p)).publishers
        exact hY2p
  | journalist =>
    cases pub with
    | none =>
      rw [createRoleProfile_none_eq _ _ _ (Or.inr rfl)]
      exact ⟨hY2e, hY2j, hY2p⟩
    | some p =>
      rw [createRoleProfile_journalist_some]
      obtain ⟨hex, he2, hp⟩ := f2 p hrole rfl
      refine ⟨?_, ?_, ?_⟩
      · show Y2.editors = (approve_role_application db appId (some p)).editors
        exact hY2e
      · show (getOrCreateJournalist Y2.journalists Y2.nextId u2.id p.id).1
            = (approve_role_application db appId (some p)).journalists
        rw [hY2j]
        have hex2 : ∃ jj ∈ (approve_role_application db appId (some p)).journalists,
            jj.userId = u2.id ∧ jj.publisherId = p.id := by
          obtain ⟨jj, hjj, h1, h2⟩ := hex
          exact ⟨jj, hjj, h1.trans huid.symm, h2⟩
        rw [getOrCreateJournalist_idem _ _ _ _ hex2]
      · show Y2.publishers = (approve_role_application db appId (some p)).publishers
        exact hY2p
  | publisher =>
    rw [createRoleProfile_publisher_eq]
    obtain ⟨hex, he2, hj2⟩ := f3 hrole
    refine ⟨?_, ?_, ?_⟩
    · show Y2.editors = (approve_role_application db appId pub).editors
      exact hY2e
    · show Y2.journalists = (approve_role_application db appId pub).journalists
      exact hY2j
    · show (getOrCreatePublisher Y2.publishers Y2.nextId u2.id (u2.username ++ " Publishing")).1
          = (approve_role_application db appId pub).publishers
      rw [hY2p]
      have hex2 : ∃ q ∈ (approve_role_application db appId pub).publishers,
          q.userId = u2.id ∧ q.name = u2.username ++ " Publishing" := by
        obtain ⟨q, hq, h1, h2⟩ := hex
        exact ⟨q, hq, h1.trans huid.symm, h2⟩
      rw [getOrCreatePublisher_idem _ _ _ _ hex2]

end NewsApp

namespace NewsApp

/-- C2: approving a pending role application marks it approved, sets the
user role to the applied role, deactivates (without deleting) every
subscription row of that user, and creates the role-specific profile with
get-or-create semantics — Editor or Journalist only when a publisher was
supplied, Publisher named "<username> Publishing"; with applied role editor
or journalist and no publisher supplied the role is still updated but no
profile of any kind is created; and re-running the same approved decision
leaves all three profile tables unchanged, so no duplicate profile row ever
appears. -/
theorem C2_role_application_approval (db : DB) (appId : Nat) (pub : Option Publisher)
    (app : RoleApp) (user : User)
    (happ : db.applications.find? (fun x => x.id == appId) = some app)
    (hpend : app.status = ReviewStatus.pending)
    (huser : db.users.find? (fun x => x.id == app.userId) = some user) :
    (∀ x ∈ (approve_role_application db appId pub).applications,
        x.id = appId → x.status = ReviewStatus.approved)
    ∧ (∀ x ∈ (approve_role_application db appId pub).users,
        x.id = app.userId → x.role = app.appliedRole)
    ∧ (∀ s ∈ (approve_role_application db appId pub).jSubs,
        s.readerId = app.userId → s.isActive = false)
    ∧ (∀ s ∈ (approve_role_application db appId pub).pSubs,
        s.readerId = app.userId → s.isActive = false)
    ∧ (approve_role_application db appId pub).jSubs.map (fun s => (s.readerId, s.journalistId))
        = db.jSubs.map (fun s => (s.readerId, s.journalistId))
    ∧ (approve_role_application db appId pub).pSubs.map (fun s => (s.readerId, s.publisherId))
        = db.pSubs.map (fun s => (s.readerId, s.publisherId))
    ∧ (∀ p, app.appliedRole = Role.editor → pub = some p →
        (∃ e ∈ (approve_role_application db appId pub).editors,
            e.userId = app.userId ∧ e.publisherId = p.id)
        ∧ (approve_role_application db appId pub).journalists = db.journalists
        ∧ (approve_role_application db appId pub).publishers = db.publishers)
    ∧ (∀ p, app.appliedRole = Role.journalist → pub = some p →
        (∃ jj ∈ (approve_role_application db appId pub).journalists,
            jj.userId = app.userId ∧ jj.publisherId = p.id)
        ∧ (approve_role_application db appId pub).editors = db.editors
        ∧ (approve_role_application db appId pub).publishers = db.publishers)
    ∧ (app.appliedRole = Role.publisher →
        (∃ q ∈ (approve_role_application db appId pub).publishers,
            q.userId = app.userId ∧ q.name = user.username ++ " Publishing")
        ∧ (approve_role_application db appId pub).editors = db.editors
        ∧ (approve_role_application db appId pub).journalists = db.journalists)
    ∧ ((app.appliedRole = Role.editor ∨ app.appliedRole = Role.journalist) → pub = none →
        (approve_role_application db appId pub).editors = db.editors
        ∧ (approve_role_application db appId pub).journalists = db.journalists
        ∧ (approve_role_application db appId pub).publishers = db.publishers)
    ∧ ((approve_role_application (approve_role_application db appId pub) appId pub).editors
          = (approve_role_application db appId pub).editors
        ∧ (approve_role_application (approve_role_application db appId pub) appId pub).journalists
          = (approve_role_application db appId pub).journalists
        ∧ (approve_role_application (approve_role_application db appId pub) appId pub).publishers
          = (approve_role_application db appId pub).publishers) := by
  have huid : user.id = app.userId := by
    have h := List.find?_some huser
    simpa using h
  obtain ⟨s1, s2, s3, s4⟩ := approve_subs_facts db appId pub app user happ huser
  obtain ⟨p1, p2, p3, p4⟩ := approve_profiles_fact db appId pub app user happ huser
  refine ⟨?_, ?_, s1, s2, s3, s4, p1, p2, p3, p4,
    approve_idem_profiles db appId pub app user happ huser⟩
  · intro x hx hid
    rw [approve_apps_fact db appId pub app user happ huser] at hx
    rcases mem_updateWhere.mp hx with ⟨y, hy, hyx⟩
    by_cases hpy : (y.id == appId) = true
    · rw [if_pos hpy] at hyx
      rw [hyx]
    · rw [if_neg hpy] at hyx
      exact absurd (hyx ▸ (by simp [hid]) : (y.id == appId) = true) hpy
  · intro x hx hid
    rw [approve_users_fact db appId pub app user happ huser] at hx
    rcases mem_updateWhere.mp hx with ⟨y, hy, hyx⟩
    by_cases hpy : (y.id == user.id) = true
    · rw [if_pos hpy] at hyx
      rw [hyx]
    · rw [if_neg hpy] at hyx
      refine absurd (hyx ▸ (by simp [hid, huid]) : (y.id == user.id) = true) hpy

/-- C2 witness: approving alice's pending journalist application with
publisher 1 in the concrete state deactivates her subscriptions and creates
the journalist profile. -/
theorem C2_role_application_approval_witness :
    (∀ s ∈ (approve_role_application exDB 1 (some { id := 1, userId := 4, name := "Acme" })).jSubs,
        s.readerId = 1 → s.isActive = false)
    ∧ (∃ jj ∈ (approve_role_application exDB 1
          (some { id := 1, userId := 4, name := "Acme" })).journalists,
        jj.userId = 1 ∧ jj.publisherId = 1) :=
  ⟨(C2_role_application_approval exDB 1 (some { id := 1, userId := 4, name := "Acme" })
      { id := 1, userId := 1, appliedRole := Role.journalist, status := ReviewStatus.pending }
      exAlice (by decide) rfl (by decide)).2.2.1,
   ((C2_role_application_approval exDB 1 (some { id := 1, userId := 4, name := "Acme" })
      { id := 1, userId := 1, appliedRole := Role.journalist, status := ReviewStatus.pending }
      exAlice (by decide) rfl (by decide)).2.2.2.2.2.2.2.1
      { id := 1, userId := 4, name := "Acme" } rfl rfl).1⟩

end NewsApp

namespace NewsApp

/-- Primary-key and foreign-key sanity of a state: user ids are unique and
every subscription's reader references an existing user row (the database
enforces both by constraint). -/
def wellFormedUsers (db : DB) : Prop :=
  (db.users.map (fun v => v.id)).Nodup
  ∧ (∀ s ∈ db.jSubs, ∃ v ∈ db.users, v.id = s.readerId)
  ∧ (∀ s ∈ db.pSubs, ∃ v ∈ db.users, v.id = s.readerId)

/-- The lifecycle invariant: only users with role reader hold active
subscriptions. -/
def onlyReadersSubscribed (db : DB) : Prop :=
  (∀ s ∈ db.jSubs, s.isActive = true →
    ∀ v ∈ db.users, v.id = s.readerId → v.role = Role.reader)
  ∧ (∀ s ∈ db.pSubs, s.isActive = true →
    ∀ v ∈ db.users, v.id = s.readerId → v.role = Role.reader)

instance (db : DB) : Decidable (wellFormedUsers db) := by
  unfold wellFormedUsers; infer_instance

instance (db : DB) : Decidable (onlyReadersSubscribed db) := by
  unfold onlyReadersSubscribed; infer_instance

theorem inv_of_fields {db1 db2 : DB} (hu : db2.users = db1.users)
    (hj : db2.jSubs = db1.jSubs) (hp : db2.pSubs = db1.pSubs)
    (h : onlyReadersSubscribed db1) : onlyReadersSubscribed db2 := by
  unfold onlyReadersSubscribed at h ⊢
  rw [hu, hj, hp]
  exact h

theorem wf_of_fields {db1 db2 : DB} (hu : db2.users = db1.users)
    (hj : db2.jSubs = db1.jSubs) (hp : db2.pSubs = db1.pSubs)
    (h : wellFormedUsers db1) : wellFormedUsers db2 := by
  unfold wellFormedUsers at h ⊢
  rw [hu, hj, hp]
  exact h

theorem deactivateSubs_preserves_inv (db : DB) (uid : Nat)
    (hinv : onlyReadersSubscribed db) :
    onlyReadersSubscribed (deactivateSubs db uid) := by
  obtain ⟨hJ, hP⟩ := hinv
  constructor
  · intro s hs ha v hv hvid
    rcases mem_updateWhere.mp hs with ⟨x, hx, hxs⟩
    by_cases hpx : (x.readerId == uid && x.isActive) = true
    · rw [if_pos hpx] at hxs
      rw [hxs] at ha
      exact absurd ha (by simp)
    · rw [if_neg hpx] at hxs
      subst hxs
      exact hJ s hx ha v hv hvid
  · intro s hs ha v hv hvid
    rcases mem_updateWhere.mp hs with ⟨x, hx, hxs⟩
    by_cases hpx : (x.readerId == uid && x.isActive) = true
    · rw [if_pos hpx] at hxs
      rw [hxs] at ha
      exact absurd ha (by simp)
    · rw [if_neg hpx] at hxs
      subst hxs
      exact hP s hx ha v hv hvid

theorem userSave_preserves_inv (db : DB) (u : User)
    (hwf : wellFormedUsers db) (hinv : onlyReadersSubscribed db) :
    onlyReadersSubscribed (userSave db u) := by
  obtain ⟨hnd, hfkJ, hfkP⟩ := hwf
  obtain ⟨hJ, hP⟩ := hinv
  unfold userSave
  cases hfind : db.users.find? fun x => x.id == u.id with
  | none =>
    dsimp only
    refine ⟨?_, ?_⟩
    · intro s hs ha v hv hvid
      rcases List.mem_append.mp hv with hv2 | hv2
      · exact hJ s hs ha v hv2 hvid
      · simp only [List.mem_singleton] at hv2
        rcases hfkJ s hs with ⟨w, hw, hwid⟩
        have huid2 : u.id = s.readerId := by rw [← hv2]; exact hvid
        exact absurd (by simp [hwid, huid2] : (w.id == u.id) = true)
          (List.find?_eq_none.mp hfind w hw)
    · intro s hs ha v hv hvid
      rcases List.mem_append.mp hv with hv2 | hv2
      · exact hP s hs ha v hv2 hvid
      · simp only [List.mem_singleton] at hv2
        rcases hfkP s hs with ⟨w, hw, hwid⟩
        have huid2 : u.id = s.readerId := by rw [← hv2]; exact hvid
        exact absurd (by simp [hwid, huid2] : (w.id == u.id) = true)
          (List.find?_eq_none.mp hfind w hw)
  | some old =>
    have hold := List.mem_of_find?_eq_some hfind
    have holdid : old.id = u.id := by simpa using List.find?_some hfind
    dsimp only
    by_cases hcond : old.role ≠ u.role ∧ old.role = Role.reader ∧ u.role ≠ Role.reader
    · rw [if_pos hcond]
      unfold deactivateSubs
      dsimp only
      refine ⟨?_, ?_⟩
      · intro s hs ha v hv hvid
        rcases mem_updateWhere.mp hs with ⟨x, hx, hxs⟩
        by_cases hpx : (x.readerId == u.id && x.isActive) = true
        · rw [if_pos hpx] at hxs
          rw [hxs] at ha
          exact absurd ha (by simp)
        · rw [if_neg hpx] at hxs
          have hxa : x.isActive = true := by rw [← hxs]; exact ha
          have hxne : x.readerId ≠ u.id := fun he => hpx (by simp [he, hxa])
          rcases mem_updateWhere.mp hv with ⟨y, hy, hyv⟩
          by_cases hpy : (y.id == u.id) = true
          · rw [if_pos hpy] at hyv
            have : u.id = x.readerId := by rw [← hyv, hvid, hxs]
            exact absurd this.symm hxne
          · rw [if_neg hpy] at hyv
            rw [hyv]
            exact hJ x hx hxa y hy (by rw [← hyv, hvid, hxs])
      · intro s hs ha v hv hvid
        rcases mem_updateWhere.mp hs with ⟨x, hx, hxs⟩
        by_cases hpx : (x.readerId == u.id && x.isActive) = true
        · rw [if_pos hpx] at hxs
          rw [hxs] at ha
          exact absurd ha (by simp)
        · rw [if_neg hpx] at hxs
          have hxa : x.isActive = true := by rw [← hxs]; exact ha
          have hxne : x.readerId ≠ u.id := fun he => hpx (by simp [he, hxa])
          rcases mem_updateWhere.mp hv with ⟨y, hy, hyv⟩
          by_cases hpy : (y.id == u.id) = true
          · rw [if_pos hpy] at hyv
            have : u.id = x.readerId := by rw [← hyv, hvid, hxs]
            exact absurd this.symm hxne
          · rw [if_neg hpy] at hyv
            rw [hyv]
            exact hP x hx hxa y hy (by rw [← hyv, hvid, hxs])
    · rw [if_neg hcond]
      refine ⟨?_, ?_⟩
      · intro s hs ha v hv hvid
        rcases mem_updateWhere.mp hv with ⟨y, hy, hyv⟩
        by_cases hpy : (y.id == u.id) = true
        · rw [if_pos hpy] at hyv
          have holdrole : old.role = Role.reader :=
            hJ s hs ha old hold (by rw [holdid, ← hyv]; exact hvid)
          by_cases hur : u.role = Role.reader
          · rw [hyv]
            exact hur
          · exact absurd ⟨by rw [holdrole]; exact fun hh => hur hh.symm, holdrole, hur⟩ hcond
        · rw [if_neg hpy] at hyv
          rw [hyv]
          exact hJ s hs ha y hy (by rw [← hyv]; exact hvid)
      · intro s hs ha v hv hvid
        rcases mem_updateWhere.mp hv with ⟨y, hy, hyv⟩
        by_cases hpy : (y.id == u.id) = true
        · rw [if_pos hpy] at hyv
          have holdrole : old.role = Role.reader :=
            hP s hs ha old hold (by rw [holdid, ← hyv]; exact hvid)
          by_cases hur : u.role = Role.reader
          · rw [hyv]
            exact hur
          · exact absurd ⟨by rw [holdrole]; exact fun hh => hur hh.symm, holdrole, hur⟩ hcond
        · rw [if_neg hpy] at hyv
          rw [hyv]
          exact hP s hs ha y hy (by rw [← hyv]; exact hvid)

end NewsApp

namespace NewsApp

theorem userSave_subs_inactive (db : DB) (u : User)
    (hwf : wellFormedUsers db) (hinv : onlyReadersSubscribed db)
    (hrole : u.role ≠ Role.reader) :
    (∀ s ∈ (userSave db u).jSubs, s.readerId = u.id → s.isActive = false)
    ∧ (∀ s ∈ (userSave db u).pSubs, s.readerId = u.id → s.isActive = false) := by
  obtain ⟨hnd, hfkJ, hfkP⟩ := hwf
  obtain ⟨hJ, hP⟩ := hinv
  unfold userSave
  cases hfind : db.users.find? fun x => x.id == u.id with
  | none =>
    dsimp only
    refine ⟨?_, ?_⟩
    · intro s hs hr
      rcases hfkJ s hs with ⟨w, hw, hwid⟩
      exact absurd (by simp [hwid, hr] : (w.id == u.id) = true)
        (List.find?_eq_none.mp hfind w hw)
    · intro s hs hr
      rcases hfkP s hs with ⟨w, hw, hwid⟩
      exact absurd (by simp [hwid, hr] : (w.id == u.id) = true)
        (List.find?_eq_none.mp hfind w hw)
  | some old =>
    have hold := List.mem_of_find?_eq_some hfind
    have holdid : old.id = u.id := by simpa using List.find?_some hfind
    dsimp only
    by_cases hcond : old.role ≠ u.role ∧ old.role = Role.reader ∧ u.role ≠ Role.reader
    · rw [if_pos hcond]
      exact ⟨deactivateSubs_jSubs_inactive _ _, deactivateSubs_pSubs_inactive _ _⟩
    · rw [if_neg hcond]
      refine ⟨?_, ?_⟩
      · intro s hs hr
        by_contra hact
        rw [Bool.not_eq_false] at hact
        have holdrole := hJ s hs hact old hold (holdid.trans hr.symm)
        by_cases hur : u.role = Role.reader
        · exact hrole hur
        · exact hcond ⟨by rw [holdrole]; exact fun hh => hur hh.symm, holdrole, hur⟩
      · intro s hs hr
        by_contra hact
        rw [Bool.not_eq_false] at hact
        have holdrole := hP s hs hact old hold (holdid.trans hr.symm)
        by_cases hur : u.role = Role.reader
        · exact hrole hur
        · exact hcond ⟨by rw [holdrole]; exact fun hh => hur hh.symm, holdrole, hur⟩

theorem approve_preserves_inv (db : DB) (appId : Nat) (pub : Option Publisher)
    (hwf : wellFormedUsers db) (hinv : onlyReadersSubscribed db) :
    onlyReadersSubscribed (approve_role_application db appId pub) := by
  unfold approve_role_application
  cases happ : db.applications.find? fun x => x.id == appId with
  | none => exact hinv
  | some app =>
    dsimp only
    cases huser : db.users.find? fun x => x.id == app.userId with
    | none => exact inv_of_fields rfl rfl rfl hinv
    | some user =>
      dsimp only
      apply inv_of_fields (createRoleProfile_fixed _ _ _ _).1
        (createRoleProfile_fixed _ _ _ _).2.1 (createRoleProfile_fixed _ _ _ _).2.2.1
      apply deactivateSubs_preserves_inv
      apply userSave_preserves_inv
      · exact wf_of_fields rfl rfl rfl hwf
      · exact inv_of_fields rfl rfl rfl hinv

theorem roleApplicationSaveModel_eq (db : DB) (obj : RoleApp) (pub : Option Publisher)
    (user : User)
    (happr : obj.status = ReviewStatus.approved)
    (huser : db.users.find? (fun x => x.id == obj.userId) = some user) :
    roleApplicationSaveModel db obj pub
      = createRoleProfile
          (deactivateSubs
            (userSave
              { db with
                  applications :=
                    if db.applications.any fun a => a.id == obj.id then
                      updateWhere (fun a => a.id == obj.id) (fun _ => obj) db.applications
                    else db.applications ++ [obj] }
              { user with role := obj.appliedRole })
            user.id)
          { user with role := obj.appliedRole } obj.appliedRole pub := by
  unfold roleApplicationSaveModel
  rw [if_pos happr]
  dsimp only
  rw [huser]

theorem saveModel_preserves_inv (db : DB) (obj : RoleApp) (pub : Option Publisher)
    (hwf : wellFormedUsers db) (hinv : onlyReadersSubscribed db) :
    onlyReadersSubscribed (roleApplicationSaveModel db obj pub) := by
  unfold roleApplicationSaveModel
  by_cases happr : obj.status = ReviewStatus.approved
  · rw [if_pos happr]
    dsimp only
    cases huser : db.users.find? fun x => x.id == obj.userId with
    | none => exact inv_of_fields rfl rfl rfl hinv
    | some user =>
      dsimp only
      apply inv_of_fields (createRoleProfile_fixed _ _ _ _).1
        (createRoleProfile_fixed _ _ _ _).2.1 (createRoleProfile_fixed _ _ _ _).2.2.1
      apply deactivateSubs_preserves_inv
      apply userSave_preserves_inv
      · exact wf_of_fields rfl rfl rfl hwf
      · exact inv_of_fields rfl rfl rfl hinv
  · rw [if_neg happr]
    exact inv_of_fields rfl rfl rfl hinv

theorem saveModel_subs_inactive (db : DB) (obj : RoleApp) (pub : Option Publisher)
    (user : User)
    (happr : obj.status = ReviewStatus.approved)
    (huser : db.users.find? (fun x => x.id == obj.userId) = some user) :
    (∀ s ∈ (roleApplicationSaveModel db obj pub).jSubs,
        s.readerId = obj.userId → s.isActive = false)
    ∧ (∀ s ∈ (roleApplicationSaveModel db obj pub).pSubs,
        s.readerId = obj.userId → s.isActive = false) := by
  have huid : user.id = obj.userId := by simpa using List.find?_some huser
  rw [roleApplicationSaveModel_eq db obj pub user happr huser]
  constructor
  · intro s hs hr
    rw [(createRoleProfile_fixed _ _ _ _).2.1] at hs
    exact deactivateSubs_jSubs_inactive _ _ s hs (by rw [huid]; exact hr)
  · intro s hs hr
    rw [(createRoleProfile_fixed _ _ _ _).2.2.1] at hs
    exact deactivateSubs_pSubs_inactive _ _ s hs (by rw [huid]; exact hr)

end NewsApp

namespace NewsApp

theorem subscribeJ_preserves_inv (db : DB) (u : User) (jid : Nat)
    (hwf : wellFormedUsers db) (hinv : onlyReadersSubscribed db) (hu : u ∈ db.users) :
    onlyReadersSubscribed (subscribe_to_journalist db u jid).2 := by
  obtain ⟨hnd, hfkJ, hfkP⟩ := hwf
  obtain ⟨hJ, hP⟩ := hinv
  unfold subscribe_to_journalist
  by_cases hrole : u.role ≠ Role.reader
  · rw [if_pos hrole]
    exact ⟨hJ, hP⟩
  · rw [if_neg hrole]
    rw [not_not] at hrole
    by_cases htgt : ¬ (db.journalists.any fun j => j.id == jid) = true
    · rw [if_pos htgt]
      exact ⟨hJ, hP⟩
    · rw [if_neg htgt]
      cases hfind : db.jSubs.find? fun s => s.readerId == u.id && s.journalistId == jid with
      | none =>
        dsimp only
        refine ⟨?_, hP⟩
        intro s hs ha v hv hvid
        rcases List.mem_append.mp hs with hs2 | hs2
        · exact hJ s hs2 ha v hv hvid
        · simp only [List.mem_singleton] at hs2
          have hvu : v = u := by
            apply eq_of_nodup_key (fun w : User => w.id) hnd hv hu
            rw [hvid, hs2]
          rw [hvu]
          exact hrole
      | some srow =>
        dsimp only
        by_cases hact : srow.isActive = false
        · rw [if_pos hact]
          dsimp only
          refine ⟨?_, hP⟩
          intro s hs ha v hv hvid
          rcases mem_updateWhere.mp hs with ⟨x, hx, hxs⟩
          by_cases hpx : (x.readerId == u.id && x.journalistId == jid) = true
          · rw [if_pos hpx] at hxs
            simp only [Bool.and_eq_true, beq_iff_eq] at hpx
            have hvu : v = u := by
              apply eq_of_nodup_key (fun w : User => w.id) hnd hv hu
              rw [hvid, hxs]
              exact hpx.1
            rw [hvu]
            exact hrole
          · rw [if_neg hpx] at hxs
            have hxa : x.isActive = true := by rw [← hxs]; exact ha
            rw [hxs] at hvid
            exact hJ x hx hxa v hv hvid
        · rw [if_neg hact]
          exact ⟨hJ, hP⟩

theorem subscribeP_preserves_inv (db : DB) (u : User) (pid : Nat)
    (hwf : wellFormedUsers db) (hinv : onlyReadersSubscribed db) (hu : u ∈ db.users) :
    onlyReadersSubscribed (subscribe_to_publisher db u pid).2 := by
  obtain ⟨hnd, hfkJ, hfkP⟩ := hwf
  obtain ⟨hJ, hP⟩ := hinv
  unfold subscribe_to_publisher
  by_cases hrole : u.role ≠ Role.reader
  · rw [if_pos hrole]
    exact ⟨hJ, hP⟩
  · rw [if_neg hrole]
    rw [not_not] at hrole
    by_cases htgt : ¬ (db.publishers.any fun p => p.id == pid) = true
    · rw [if_pos htgt]
      exact ⟨hJ, hP⟩
    · rw [if_neg htgt]
      cases hfind : db.pSubs.find? fun s => s.readerId == u.id && s.publisherId == pid with
      | none =>
        dsimp only
        refine ⟨hJ, ?_⟩
        intro s hs ha v hv hvid
        rcases List.mem_append.mp hs with hs2 | hs2
        · exact hP s hs2 ha v hv hvid
        · simp only [List.mem_singleton] at hs2
          have hvu : v = u := by
            apply eq_of_nodup_key (fun w : User => w.id) hnd hv hu
            rw [hvid, hs2]
          rw [hvu]
          exact hrole
      | some srow =>
        dsimp only
        by_cases hact : srow.isActive = false
        · rw [if_pos hact]
          dsimp only
          refine ⟨hJ, ?_⟩
          intro s hs ha v hv hvid
          rcases mem_updateWhere.mp hs with ⟨x, hx, hxs⟩
          by_cases hpx : (x.readerId == u.id && x.publisherId == pid) = true
          · rw [if_pos hpx] at hxs
            simp only [Bool.and_eq_true, beq_iff_eq] at hpx
            have hvu : v = u := by
              apply eq_of_nodup_key (fun w : User => w.id) hnd hv hu
              rw [hvid, hxs]
              exact hpx.1
            rw [hvu]
            exact hrole
          · rw [if_neg hpx] at hxs
            have hxa : x.isActive = true := by rw [← hxs]; exact ha
            rw [hxs] at hvid
            exact hP x hx hxa v hv hvid
        · rw [if_neg hact]
          exact ⟨hJ, hP⟩

theorem unsubscribeJ_preserves_inv (db : DB) (u : User) (jid : Nat)
    (hinv : onlyReadersSubscribed db) :
    onlyReadersSubscribed (unsubscribe_from_journalist db u jid).2 := by
  obtain ⟨hJ, hP⟩ := hinv
  unfold unsubscribe_from_journalist
  by_cases hrole : u.role ≠ Role.reader
  · rw [if_pos hrole]
    exact ⟨hJ, hP⟩
  · rw [if_neg hrole]
    by_cases htgt : ¬ (db.journalists.any fun j => j.id == jid) = true
    · rw [if_pos htgt]
      exact ⟨hJ, hP⟩
    · rw [if_neg htgt]
      cases hfind : db.jSubs.find? fun s =>
          s.readerId == u.id && s.journalistId == jid && s.isActive with
      | none => exact ⟨hJ, hP⟩
      | some srow =>
        dsimp only
        refine ⟨?_, hP⟩
        intro s hs ha v hv hvid
        rcases mem_updateWhere.mp hs with ⟨x, hx, hxs⟩
        by_cases hpx : (x.readerId == u.id && x.journalistId == jid && x.isActive) = true
        · rw [if_pos hpx] at hxs
          rw [hxs] at ha
          exact absurd ha (by simp)
        · rw [if_neg hpx] at hxs
          have hxa : x.isActive = true := by rw [← hxs]; exact ha
          rw [hxs] at hvid
          exact hJ x hx hxa v hv hvid

theorem unsubscribeP_preserves_inv (db : DB) (u : User) (pid : Nat)
    (hinv : onlyReadersSubscribed db) :
    onlyReadersSubscribed (unsubscribe_from_publisher db u pid).2 := by
  obtain ⟨hJ, hP⟩ := hinv
  unfold unsubscribe_from_publisher
  by_cases hrole : u.role ≠ Role.reader
  · rw [if_pos hrole]
    exact ⟨hJ, hP⟩
  · rw [if_neg hrole]
    by_cases htgt : ¬ (db.publishers.any fun p => p.id == pid) = true
    · rw [if_pos htgt]
      exact ⟨hJ, hP⟩
    · rw [if_neg htgt]
      cases hfind : db.pSubs.find? fun s =>
          s.readerId == u.id && s.publisherId == pid && s.isActive with
      | none => exact ⟨hJ, hP⟩
      | some srow =>
        dsimp only
        refine ⟨hJ, ?_⟩
        intro s hs ha v hv hvid
        rcases mem_updateWhere.mp hs with ⟨x, hx, hxs⟩
        by_cases hpx : (x.readerId == u.id && x.publisherId == pid && x.isActive) = true
        · rw [if_pos hpx] at hxs
          rw [hxs] at ha
          exact absurd ha (by simp)
        · rw [if_neg hpx] at hxs
          have hxa : x.isActive = true := by rw [← hxs]; exact ha
          rw [hxs] at hvid
          exact hP x hx hxa v hv hvid

end NewsApp

namespace NewsApp

/-- C3: in a well-formed state (unique user ids, subscriptions referencing
existing users) the invariant "only users with role reader hold active
subscriptions" is preserved by every modelled operation — the save hook that
performs direct role assignment, the role-application approval view, the
admin save_model path, and the four subscription toggles — and whenever a
code path moves a user's role away from reader (direct save with a
non-reader role, approval of an application, or an admin-approved
application) every journalist and publisher subscription row of that user is
inactive in the resulting state, together with the role change. -/
theorem C3_only_readers_active_subs (db : DB)
    (hwf : wellFormedUsers db) (hinv : onlyReadersSubscribed db) :
    (∀ u, onlyReadersSubscribed (userSave db u))
    ∧ (∀ u, u.role ≠ Role.reader →
        (∀ s ∈ (userSave db u).jSubs, s.readerId = u.id → s.isActive = false)
        ∧ (∀ s ∈ (userSave db u).pSubs, s.readerId = u.id → s.isActive = false))
    ∧ (∀ appId pub, onlyReadersSubscribed (approve_role_application db appId pub))
    ∧ (∀ appId pub app user,
        db.applications.find? (fun x => x.id == appId) = some app →
        db.users.find? (fun x => x.id == app.userId) = some user →
        (∀ s ∈ (approve_role_application db appId pub).jSubs,
            s.readerId = app.userId → s.isActive = false)
        ∧ (∀ s ∈ (approve_role_application db appId pub).pSubs,
            s.readerId = app.userId → s.isActive = false))
    ∧ (∀ obj pub, onlyReadersSubscribed (roleApplicationSaveModel db obj pub))
    ∧ (∀ obj pub user, obj.status = ReviewStatus.approved →
        db.users.find? (fun x => x.id == obj.userId) = some user →
        (∀ s ∈ (roleApplicationSaveModel db obj pub).jSubs,
            s.readerId = obj.userId → s.isActive = false)
        ∧ (∀ s ∈ (roleApplicationSaveModel db obj pub).pSubs,
            s.readerId = obj.userId → s.isActive = false))
    ∧ (∀ u jid, u ∈ db.users → onlyReadersSubscribed (subscribe_to_journalist db u jid).2)
    ∧ (∀ u pid, u ∈ db.users → onlyReadersSubscribed (subscribe_to_publisher db u pid).2)
    ∧ (∀ u jid, onlyReadersSubscribed (unsubscribe_from_journalist db u jid).2)
    ∧ (∀ u pid, onlyReadersSubscribed (unsubscribe_from_publisher db u pid).2) := by
  refine ⟨fun u => userSave_preserves_inv db u hwf hinv,
    fun u hr => userSave_subs_inactive db u hwf hinv hr,
    fun appId pub => approve_preserves_inv db appId pub hwf hinv,
    fun appId pub app user happ huser => ?_,
    fun obj pub => saveModel_preserves_inv db obj pub hwf hinv,
    fun obj pub user happr huser => saveModel_subs_inactive db obj pub user happr huser,
    fun u jid hu => subscribeJ_preserves_inv db u jid hwf hinv hu,
    fun u pid hu => subscribeP_preserves_inv db u pid hwf hinv hu,
    fun u jid => unsubscribeJ_preserves_inv db u jid hinv,
    fun u pid => unsubscribeP_preserves_inv db u pid hinv⟩
  obtain ⟨s1, s2, _, _⟩ := approve_subs_facts db appId pub app user happ huser
  exact ⟨s1, s2⟩

/-- C3 witness: the concrete state is well-formed and satisfies the
invariant, and after admin-editing alice straight to role editor through the
user save hook the invariant still holds and all of her subscription rows
are inactive. -/
theorem C3_only_readers_active_subs_witness :
    onlyReadersSubscribed (userSave exDB { exAlice with role := Role.editor })
    ∧ (∀ s ∈ (userSave exDB { exAlice with role := Role.editor }).jSubs,
        s.readerId = 1 → s.isActive = false) :=
  ⟨(C3_only_readers_active_subs exDB (by decide) (by decide)).1
      { exAlice with role := Role.editor },
   ((C3_only_readers_active_subs exDB (by decide) (by decide)).2.1
      { exAlice with role := Role.editor } (by decide)).1⟩

end NewsApp
